import Mathlib

/-!
Verification of the CV-extraction reconciliation engine of the JTA job-tracker
repository: the extraction normalizer (`ai_service.py`: `extract_cv_data_deep`,
`_normalize_profile_structure`, `_get_empty_profile_structure`,
`extract_cv_data`) and the merge reconciler (`app.py`:
`_perform_cv_extraction`, lines 2548-2888, with its helper predicates
`is_empty_json`, `is_empty_text`, `has_non_empty_data`,
`has_non_empty_identity_field`, `is_valid_extracted_value`).

Python JSON values are embedded as the inductive `JVal`.  Arrays and objects
are encoded with explicit cons cells (`acons`/`anil`, `ocons`/`onil`) inside
the single inductive so that every traversal is plain structural recursion
and every definition evaluates by kernel reduction.  `jarr`/`jobj` build the
encoded forms from Lean lists.

Modelling conventions, used throughout:
* Python numbers are modelled as `Int`; float literals, `NaN` and `Infinity`
  are outside the model (no claim mentions them).
* Python's `str()` of a non-string is modelled by `pyRepr`, which reproduces
  `repr` for the shapes the code can meet (None/True/False/ints/lists/dicts
  and single-quoted strings with the common escapes); exotic quote selection
  is not reproduced.  Both the embedded code and the spec-side rules use the
  same `pyRepr`, so this approximation cannot tilt any comparison.
* The LLM call is an opaque collaborator: `extract_cv_data_deep` takes the
  raw model response text as an explicit argument next to the CV text, and
  the AI-availability flag as a Bool.
* Exceptions raised and caught inside the source (`json.JSONDecodeError`,
  the `ValueError` re-raise swallowed by the outer `except Exception`) are
  modelled by `Option` results; the functions are total, which is exactly
  the "never raises" behaviour of the outer handler.
-/

inductive JVal where
  | null
  | bool (b : Bool)
  | num (n : Int)
  | str (s : String)
  | anil
  | acons (hd tl : JVal)
  | onil
  | ocons (key : String) (val tl : JVal)
deriving DecidableEq

/-- Build an encoded JSON array from a Lean list. -/
def jarr : List JVal → JVal
  | [] => .anil
  | v :: vs => .acons v (jarr vs)

/-- Build an encoded JSON object from a Lean association list. -/
def jobj : List (String × JVal) → JVal
  | [] => .onil
  | (k, v) :: kvs => .ocons k v (jobj kvs)

/-- Character class of Python's default `str.strip()`. -/
def isPySpace (c : Char) : Bool :=
  c = ' ' || c = '\t' || c = '\n' || c = '\r' || c = '\x0b' || c = '\x0c'

/-- Python `str.strip()`: drop leading and trailing whitespace. -/
def pyStrip (s : String) : String :=
  ⟨((s.data.dropWhile isPySpace).reverse.dropWhile isPySpace).reverse⟩

/-- ASCII lower-casing of one character. -/
def lowerChar (c : Char) : Char :=
  if 'A' ≤ c ∧ c ≤ 'Z' then Char.ofNat (c.toNat + 32) else c

/-- Python `str.lower()` (ASCII part; the code only compares with "null"). -/
def pyLower (s : String) : String := ⟨s.data.map lowerChar⟩

/-- Python truthiness of a JSON value. -/
def pyTruthy : JVal → Bool
  | .null => false
  | .bool b => b
  | .num n => n ≠ 0
  | .str s => s ≠ ""
  | .anil => false
  | .acons _ _ => true
  | .onil => false
  | .ocons _ _ _ => true

/-- True for encoded objects (Python `isinstance(v, dict)`). -/
def isObjV : JVal → Bool
  | .onil => true
  | .ocons _ _ _ => true
  | _ => false

/-- True for encoded arrays (Python `isinstance(v, list)`). -/
def isArrV : JVal → Bool
  | .anil => true
  | .acons _ _ => true
  | _ => false

/-- True for strings (Python `isinstance(v, str)`). -/
def isStrV : JVal → Bool
  | .str _ => true
  | _ => false

/-- The wrapped string of a string value, `""` otherwise. -/
def strval : JVal → String
  | .str s => s
  | _ => ""

/-- Python `dict.get(k)`: value of the first matching key, `None` if the key
is missing or the value is not an object.  Source dicts never hold duplicate
keys, so first-match lookup coincides with Python lookup. -/
def jget : JVal → String → JVal
  | .ocons k' v t, k => if k' = k then v else jget t k
  | _, _ => .null

/-- Python `k in d` for an encoded object. -/
def jmem : JVal → String → Bool
  | .ocons k' _ t, k => k' = k || jmem t k
  | _, _ => false

/-- Python `dict.get(k, default)`: the default applies only when the key is
missing, not when it maps to `None`. -/
def jgetD (d : JVal) (k : String) (dflt : JVal) : JVal :=
  if jmem d k then jget d k else dflt

/-- Python `x or y` specialised to JSON values. -/
def pyOr (v dflt : JVal) : JVal := if pyTruthy v then v else dflt

/-- Python `len` of an encoded array or object. -/
def jlen : JVal → Nat
  | .acons _ t => jlen t + 1
  | .ocons _ _ t => jlen t + 1
  | _ => 0

/-- Simplified Python `repr`: single-quoted strings with the usual escapes,
`None`/`True`/`False`, integers, and bracketed sequences with `", "`
separators.  (Python would switch quote style for strings containing a
single quote; nothing in the claims exercises that corner.) -/
def pyQuoteChar (c : Char) : String :=
  if c = '\\' then "\\\\"
  else if c = '\'' then "\\'"
  else if c = '\n' then "\\n"
  else if c = '\r' then "\\r"
  else if c = '\t' then "\\t"
  else String.mk [c]

/-- Python `repr` of a string, simplified as described at `pyQuoteChar`. -/
def pyQuote (s : String) : String :=
  "'" ++ String.join (s.data.map pyQuoteChar) ++ "'"

/-- Python `repr` of a JSON value (element form used inside `str(list)` and
`str(dict)`).  The `(… ).drop 1` trick strips the opening bracket of the
recursively rendered tail so the cons-cell encoding prints like a Python
list/dict literal. -/
def pyRepr : JVal → String
  | .null => "None"
  | .bool b => if b then "True" else "False"
  | .num n => toString n
  | .str s => pyQuote s
  | .anil => "[]"
  | .acons h .anil => "[" ++ pyRepr h ++ "]"
  | .acons h t => "[" ++ pyRepr h ++ ", " ++ (pyRepr t).drop 1
  | .onil => "\x7b\x7d"
  | .ocons k v .onil => "\x7b" ++ pyQuote k ++ ": " ++ pyRepr v ++ "\x7d"
  | .ocons k v t => "\x7b" ++ pyQuote k ++ ": " ++ pyRepr v ++ ", " ++ (pyRepr t).drop 1

/-- Python `str()` of a JSON value: the identity on strings, `repr`-like on
everything else. -/
def pyStr : JVal → String
  | .str s => s
  | v => pyRepr v

/-!
Predicates from `app.py` `_perform_cv_extraction` (lines 2548-2631).
The encoded-object cases transcribe Python's
`len(val) == 0 or all(...)` / `len(val) > 0 and any(...)` over the value
chain: an empty chain yields the `len` answer and each cons combines one
member with the rest.
-/

/-- Transcribes `is_empty_json` (app.py 2548-2566): `None`, empty or
all-empty dicts/lists, and strings that strip to `''`, `'null'`
(case-insensitively), `'{}'` or `'[]'` are empty; everything else is not. -/
def is_empty_json : JVal → Bool
  | .null => true
  | .onil => true
  | .ocons _ v t => is_empty_json v && is_empty_json t
  | .anil => true
  | .acons h t => is_empty_json h && is_empty_json t
  | .str s =>
      let v := pyStrip s
      v = "" || pyLower v = "null" || v = "\x7b\x7d" || v = "[]"
  | _ => false

/-- Transcribes `is_empty_text` (app.py 2568-2574): `None` or a blank
string. -/
def is_empty_text : JVal → Bool
  | .null => true
  | .str s => pyStrip s = ""
  | _ => false

/-- Python `any(not is_empty_json(x) for x in collection)` over an encoded
dict's values or an encoded list's items. -/
def anyNonEmptyMember : JVal → Bool
  | .acons h t => !is_empty_json h || anyNonEmptyMember t
  | .ocons _ v t => !is_empty_json v || anyNonEmptyMember t
  | _ => false

/-- Transcribes `has_non_empty_data` (app.py 2576-2594): the value under
`key` must be a dict/list with some non-empty member, or a non-blank
string; `None`, numbers and booleans give `False`. -/
def has_non_empty_data (d : JVal) (key : String) : Bool :=
  match jget d key with
  | .null => false
  | .str s => pyStrip s ≠ ""
  | v => anyNonEmptyMember v

/-- Python `any(item and (not isinstance(item, str) or item.strip() != '')
for item in val)` from `has_non_empty_identity_field`. -/
def anyTruthyIdItem : JVal → Bool
  | .acons h t =>
      (pyTruthy h && (!isStrV h || pyStrip (strval h) ≠ "")) || anyTruthyIdItem t
  | _ => false

/-- Transcribes `has_non_empty_identity_field` (app.py 2596-2612): requires
a truthy dict, then a non-blank string or a list with a truthy,
non-blank-if-string item under `field`. -/
def has_non_empty_identity_field (idv : JVal) (field : String) : Bool :=
  match idv with
  | .ocons _ _ _ =>
      match jget idv field with
      | .null => false
      | .str s => pyStrip s ≠ ""
      | .anil => false
      | .acons h t => anyTruthyIdItem (.acons h t)
      | _ => false
  | _ => false

/-- Transcribes `is_valid_extracted_value` (app.py 2614-2631): `None`, blank
strings and dicts/lists with no valid member are invalid; numbers and
booleans are valid. -/
def is_valid_extracted_value : JVal → Bool
  | .null => false
  | .str s => pyStrip s ≠ ""
  | .onil => false
  | .ocons _ v t => is_valid_extracted_value v || is_valid_extracted_value t
  | .anil => false
  | .acons h t => is_valid_extracted_value h || is_valid_extracted_value t
  | _ => true

/-!
The canonical `Profile` produced by `_normalize_profile_structure`
(`ai_service.py` 248-353).  Scalar leaves are `Option String`, list leaves
`Option (List String)`; the identity and skills sections are always present
as objects with fixed keys, the remaining sections are nullable.
-/

structure Identity where
  name : Option String
  email : Option String
  phone : Option String
  location : Option String
  links : Option (List String)
deriving DecidableEq

structure Skills where
  technical : Option (List String)
  tools : Option (List String)
  soft : Option (List String)
deriving DecidableEq

structure ExperienceEntry where
  company : Option String
  role : Option String
  duration : Option String
  responsibilities : Option (List String)
deriving DecidableEq

structure EducationEntry where
  degree : Option String
  institution : Option String
  year : Option String
  specialization : Option String
deriving DecidableEq

structure ProjectEntry where
  name : Option String
  tech_stack : Option String
  impact : Option String
deriving DecidableEq

structure Profile where
  identity : Identity
  professional_summary : Option String
  skills : Skills
  experience : Option (List ExperienceEntry)
  education : Option (List EducationEntry)
  projects : Option (List ProjectEntry)
  achievements : Option (List String)
deriving DecidableEq

/-- Transcribes `_get_empty_profile_structure` (ai_service.py 248-268): the
canonical all-null profile. -/
def get_empty_profile_structure : Profile :=
  { identity := { name := none, email := none, phone := none,
                  location := none, links := none }
    professional_summary := none
    skills := { technical := none, tools := none, soft := none }
    experience := none
    education := none
    projects := none
    achievements := none }

def optStrJ : Option String → JVal
  | none => .null
  | some s => .str s

def optListJ : Option (List String) → JVal
  | none => .null
  | some l => jarr (l.map .str)

/-- JSON form of the identity section, with the key set and order that
`_normalize_profile_structure` emits. -/
def Identity.toJVal (i : Identity) : JVal :=
  jobj [("name", optStrJ i.name), ("email", optStrJ i.email),
        ("phone", optStrJ i.phone), ("location", optStrJ i.location),
        ("links", optListJ i.links)]

def Skills.toJVal (s : Skills) : JVal :=
  jobj [("technical", optListJ s.technical), ("tools", optListJ s.tools),
        ("soft", optListJ s.soft)]

def ExperienceEntry.toJVal (e : ExperienceEntry) : JVal :=
  jobj [("company", optStrJ e.company), ("role", optStrJ e.role),
        ("duration", optStrJ e.duration),
        ("responsibilities", optListJ e.responsibilities)]

def EducationEntry.toJVal (e : EducationEntry) : JVal :=
  jobj [("degree", optStrJ e.degree), ("institution", optStrJ e.institution),
        ("year", optStrJ e.year), ("specialization", optStrJ e.specialization)]

def ProjectEntry.toJVal (p : ProjectEntry) : JVal :=
  jobj [("name", optStrJ p.name), ("tech_stack", optStrJ p.tech_stack),
        ("impact", optStrJ p.impact)]

def optSectJ (f : α → JVal) : Option (List α) → JVal
  | none => .null
  | some l => jarr (l.map f)

/-- JSON form of a whole profile, as the dict `_normalize_profile_structure`
returns (and `json.dumps` serialises section by section). -/
def Profile.toJVal (p : Profile) : JVal :=
  jobj [("identity", p.identity.toJVal),
        ("professional_summary", optStrJ p.professional_summary),
        ("skills", p.skills.toJVal),
        ("experience", optSectJ ExperienceEntry.toJVal p.experience),
        ("education", optSectJ EducationEntry.toJVal p.education),
        ("projects", optSectJ ProjectEntry.toJVal p.projects),
        ("achievements", optListJ p.achievements)]

/-!
The normalizer `_normalize_profile_structure` (ai_service.py 271-353).
`srcScalar` transcribes the conditional expression repeated verbatim for
every scalar field, `str(x).strip() if x is not None and x != "" else None`;
`srcStrList` transcribes the comprehension
`[str(x).strip() for x in l if x]`, and `srcListField` its guard
`... if isinstance(l, list) and l is not None else None`.
-/

def srcScalar (v : JVal) : Option String :=
  if v ≠ .null ∧ v ≠ .str "" then some (pyStrip (pyStr v)) else none

def srcStrList : JVal → List String
  | .acons h t => (if pyTruthy h then [pyStrip (pyStr h)] else []) ++ srcStrList t
  | _ => []

def srcListField (v : JVal) : Option (List String) :=
  if isArrV v then some (srcStrList v) else none

/-- Python `len([a for a in l if a])` over an encoded list. -/
def srcCountTruthy : JVal → Nat
  | .acons h t => (if pyTruthy h then 1 else 0) + srcCountTruthy t
  | _ => 0

/-- Rebuild of one experience element (ai_service.py 304-309). -/
def buildExpEntry (e : JVal) : ExperienceEntry :=
  { company := srcScalar (jget e "company")
    role := srcScalar (jget e "role")
    duration := srcScalar (jget e "duration")
    responsibilities := srcListField (jget e "responsibilities") }

/-- Comprehension over the experience list, keeping dict elements only
(`for exp in data["experience"] if isinstance(exp, dict)`). -/
def buildExperience : JVal → List ExperienceEntry
  | .acons h t => (if isObjV h then [buildExpEntry h] else []) ++ buildExperience t
  | _ => []

/-- Rebuild of one education element (ai_service.py 319-324). -/
def buildEduEntry (e : JVal) : EducationEntry :=
  { degree := srcScalar (jget e "degree")
    institution := srcScalar (jget e "institution")
    year := srcScalar (jget e "year")
    specialization := srcScalar (jget e "specialization") }

def buildEducation : JVal → List EducationEntry
  | .acons h t => (if isObjV h then [buildEduEntry h] else []) ++ buildEducation t
  | _ => []

/-- Rebuild of one project element (ai_service.py 334-338). -/
def buildProjEntry (e : JVal) : ProjectEntry :=
  { name := srcScalar (jget e "name")
    tech_stack := srcScalar (jget e "tech_stack")
    impact := srcScalar (jget e "impact") }

def buildProjects : JVal → List ProjectEntry
  | .acons h t => (if isObjV h then [buildProjEntry h] else []) ++ buildProjects t
  | _ => []

/-- Transcribes `_normalize_profile_structure` (ai_service.py 271-353),
section by section over the parsed dict `data`. -/
def normalize_profile_structure (data : JVal) : Profile :=
  let idv := jget data "identity"
  let identity : Identity :=
    if jmem data "identity" && isObjV idv then
      { name := srcScalar (jget idv "name")
        email := srcScalar (jget idv "email")
        phone := srcScalar (jget idv "phone")
        location := srcScalar (jget idv "location")
        links := srcListField (jget idv "links") }
    else get_empty_profile_structure.identity
  let ps : Option String :=
    if jmem data "professional_summary" then srcScalar (jget data "professional_summary")
    else none
  let skv := jget data "skills"
  let skills : Skills :=
    if jmem data "skills" && isObjV skv then
      { technical := srcListField (jget skv "technical")
        tools := srcListField (jget skv "tools")
        soft := srcListField (jget skv "soft") }
    else get_empty_profile_structure.skills
  let expv := jget data "experience"
  let experience : Option (List ExperienceEntry) :=
    if jmem data "experience" then
      if isArrV expv then some (buildExperience expv) else none
    else none
  let eduv := jget data "education"
  let education : Option (List EducationEntry) :=
    if jmem data "education" then
      if isArrV eduv then some (buildEducation eduv) else none
    else none
  let projv := jget data "projects"
  let projects : Option (List ProjectEntry) :=
    if jmem data "projects" then
      if isArrV projv then some (buildProjects projv) else none
    else none
  let achv := jget data "achievements"
  let achievements : Option (List String) :=
    if jmem data "achievements" then
      if isArrV achv then
        if srcCountTruthy achv > 0 then some (srcStrList achv) else none
      else if isStrV achv then
        if pyStrip (strval achv) ≠ "" then some [pyStrip (strval achv)] else none
      else none
    else none
  { identity := identity
    professional_summary := ps
    skills := skills
    experience := experience
    education := education
    projects := projects
    achievements := achievements }

/-!
Strict JSON parsing (`json.loads`), modelled as a fuel-indexed recursive
descent over the character list.  Fuel only forces structural termination;
`jloads` supplies more fuel than any input can consume.  Restrictions of the
model: numeric literals are integers (floats, `NaN`, `Infinity` are outside
the model), and `\uXXXX` escapes decode code points without surrogate-pair
combination.  No claim exercises those corners.
-/

def isJsonWs (c : Char) : Bool :=
  c = ' ' || c = '\t' || c = '\n' || c = '\r'

def skipWs (cs : List Char) : List Char := cs.dropWhile isJsonWs

def hexVal (c : Char) : Option Nat :=
  if '0' ≤ c ∧ c ≤ '9' then some (c.toNat - 48)
  else if 'a' ≤ c ∧ c ≤ 'f' then some (c.toNat - 87)
  else if 'A' ≤ c ∧ c ≤ 'F' then some (c.toNat - 55)
  else none

/-- Decode one escape sequence after a backslash inside a JSON string. -/
def decodeEsc : List Char → Option (Char × List Char)
  | [] => none
  | e :: cs =>
      if e = '"' then some ('"', cs)
      else if e = '\\' then some ('\\', cs)
      else if e = '/' then some ('/', cs)
      else if e = 'b' then some ('\x08', cs)
      else if e = 'f' then some ('\x0c', cs)
      else if e = 'n' then some ('\n', cs)
      else if e = 'r' then some ('\r', cs)
      else if e = 't' then some ('\t', cs)
      else if e = 'u' then
        match cs with
        | h1 :: h2 :: h3 :: h4 :: cs' =>
            match hexVal h1, hexVal h2, hexVal h3, hexVal h4 with
            | some a, some b, some c, some d =>
                some (Char.ofNat (((a * 16 + b) * 16 + c) * 16 + d), cs')
            | _, _, _, _ => none
        | _ => none
      else none

/-- Body of a JSON string after the opening quote; raw control characters
are rejected as in Python's default strict mode. -/
def parseStrBody : Nat → List Char → Option (List Char × List Char)
  | 0, _ => none
  | _ + 1, [] => none
  | f + 1, c :: cs =>
      if c = '"' then some ([], cs)
      else if c = '\\' then
        match decodeEsc cs with
        | some (ch, rest) => (parseStrBody f rest).map (fun p => (ch :: p.1, p.2))
        | none => none
      else if c.toNat < 32 then none
      else (parseStrBody f cs).map (fun p => (c :: p.1, p.2))

def digitsVal (ds : List Char) : Nat :=
  ds.foldl (fun a c => a * 10 + (c.toNat - 48)) 0

/-- Integer literal of the JSON grammar; a following `.`/`e`/`E` (a float)
falls outside the model and fails. -/
def parseNum (cs : List Char) : Option (Int × List Char) :=
  let sp := match cs with
            | '-' :: r => (true, r)
            | _ => (false, cs)
  match sp.2 with
  | [] => none
  | d :: _ =>
      if !d.isDigit then none
      else
        let ds := sp.2.takeWhile Char.isDigit
        let rest := sp.2.dropWhile Char.isDigit
        if ds.length > 1 && d = '0' then none
        else
          match rest with
          | '.' :: _ => none
          | 'e' :: _ => none
          | 'E' :: _ => none
          | _ =>
              let n : Int := Int.ofNat (digitsVal ds)
              some (if sp.1 then -n else n, rest)

/-- Insert into an encoded object with Python dict semantics: replacing an
existing key keeps its position, a new key is appended. -/
def objInsert : JVal → String → JVal → JVal
  | .ocons k' v' t, k, v =>
      if k' = k then .ocons k' v t else .ocons k' v' (objInsert t k v)
  | _, k, v => .ocons k v .onil

mutual

def parseVal : Nat → List Char → Option (JVal × List Char)
  | 0, _ => none
  | _ + 1, [] => none
  | f + 1, c :: rest =>
      if c = '"' then (parseStrBody f rest).map (fun p => (.str ⟨p.1⟩, p.2))
      else if c = '[' then
        match skipWs rest with
        | ']' :: r2 => some (.anil, r2)
        | cs2 => parseArrElems f cs2
      else if c = '\x7b' then
        match skipWs rest with
        | '\x7d' :: r2 => some (.onil, r2)
        | cs2 => parseObjMembers f .onil cs2
      else if ['n', 'u', 'l', 'l'].isPrefixOf (c :: rest) then
        some (.null, (c :: rest).drop 4)
      else if ['t', 'r', 'u', 'e'].isPrefixOf (c :: rest) then
        some (.bool true, (c :: rest).drop 4)
      else if ['f', 'a', 'l', 's', 'e'].isPrefixOf (c :: rest) then
        some (.bool false, (c :: rest).drop 5)
      else (parseNum (c :: rest)).map (fun p => (.num p.1, p.2))

def parseArrElems : Nat → List Char → Option (JVal × List Char)
  | 0, _ => none
  | f + 1, cs =>
      match parseVal f cs with
      | none => none
      | some (v, rest) =>
          match skipWs rest with
          | ',' :: rest2 => (parseArrElems f (skipWs rest2)).map
              (fun p => (.acons v p.1, p.2))
          | ']' :: rest2 => some (.acons v .anil, rest2)
          | _ => none

def parseObjMembers : Nat → JVal → List Char → Option (JVal × List Char)
  | 0, _, _ => none
  | f + 1, acc, cs =>
      match cs with
      | '"' :: rest =>
          match parseStrBody f rest with
          | none => none
          | some (kcs, rest1) =>
              match skipWs rest1 with
              | ':' :: rest2 =>
                  match parseVal f (skipWs rest2) with
                  | none => none
                  | some (v, rest3) =>
                      let acc2 := objInsert acc ⟨kcs⟩ v
                      match skipWs rest3 with
                      | ',' :: rest4 => parseObjMembers f acc2 (skipWs rest4)
                      | '\x7d' :: rest4 => some (acc2, rest4)
                      | _ => none
              | _ => none
      | _ => none

end

/-- Python `json.loads`: parse one value, then require only whitespace to
remain.  Returns `none` where `json.loads` raises `JSONDecodeError`. -/
def jloads (s : String) : Option JVal :=
  match parseVal (2 * s.data.length + 16) (skipWs s.data) with
  | some (v, rest) => if skipWs rest = [] then some v else none
  | none => none

/-- Escape one character for `json.dumps` output (ASCII payloads; non-ASCII
`ensure_ascii` escaping is outside the model). -/
def jsonQuoteChar (c : Char) : String :=
  if c = '\\' then "\\\\"
  else if c = '"' then "\\\""
  else if c = '\n' then "\\n"
  else if c = '\r' then "\\r"
  else if c = '\t' then "\\t"
  else String.mk [c]

def jsonQuote (s : String) : String :=
  "\"" ++ String.join (s.data.map jsonQuoteChar) ++ "\""

/-- Python `json.dumps` with its default separators `", "` and `": "`.  The
`(…).drop 1` trick strips the opening bracket of the rendered tail, as in
`pyRepr`. -/
def dumps : JVal → String
  | .null => "null"
  | .bool b => if b then "true" else "false"
  | .num n => toString n
  | .str s => jsonQuote s
  | .anil => "[]"
  | .acons h .anil => "[" ++ dumps h ++ "]"
  | .acons h t => "[" ++ dumps h ++ ", " ++ (dumps t).drop 1
  | .onil => "\x7b\x7d"
  | .ocons k v .onil => "\x7b" ++ jsonQuote k ++ ": " ++ dumps v ++ "\x7d"
  | .ocons k v t => "\x7b" ++ jsonQuote k ++ ": " ++ dumps v ++ ", " ++ (dumps t).drop 1

/-!
Markdown-fence stripping and the regex recovery pass of
`extract_cv_data_deep` (ai_service.py 172-199), then the full
response-processing pipeline.
-/

def strDropN (s : String) (n : Nat) : String := ⟨s.data.drop n⟩

def strTakeN (s : String) (n : Nat) : String := ⟨s.data.take n⟩

def startsWithS (s p : String) : Bool := p.data.isPrefixOf s.data

def endsWithS (s p : String) : Bool := p.data.isSuffixOf s.data

/-- Longest prefix not containing the separator, scanning left to right. -/
def segUntil (sep : List Char) : List Char → List Char
  | [] => []
  | c :: cs => if sep.isPrefixOf (c :: cs) then [] else c :: segUntil sep cs

/-- Python `s.split(sep)[1]` for a string that starts with `sep`: the
segment between the first separator (at position 0) and the next one. -/
def splitIdx1 (s sep : String) : String :=
  ⟨segUntil sep.data (s.data.drop sep.data.length)⟩

/-- Transcribes the fence-stripping block (ai_service.py 173-181).  The
`elif` branch is unreachable in the source (its test implies the first
test); it is kept verbatim. -/
def stripFence (t : String) : String :=
  if startsWithS t "```" then
    let t1 := splitIdx1 t "```"
    let t2 := if startsWithS t1 "json" then strDropN t1 4 else t1
    pyStrip t2
  else if startsWithS t "```json" then
    let t1 := pyStrip (strDropN t 7)
    if endsWithS t1 "```" then pyStrip (strTakeN t1 (t1.data.length - 3)) else t1
  else t

/-- Interior of a one-level nested brace block after an inner opening brace:
non-brace characters, then the closing brace (the `\x7b[^\x7b\x7d]*\x7d`
part of the recovery regex). -/
def scanSimple : List Char → Option (List Char × List Char)
  | [] => none
  | '\x7d' :: cs => some (['\x7d'], cs)
  | '\x7b' :: _ => none
  | c :: cs => (scanSimple cs).map (fun p => (c :: p.1, p.2))

/-- Interior of the outer block after its opening brace: non-brace
characters and complete simple blocks, then the closing brace.  This is the
deterministic reading of the greedy regex
`\x7b[^\x7b\x7d]*(?:\x7b[^\x7b\x7d]*\x7d[^\x7b\x7d]*)*\x7d`: at every
position exactly one continuation can succeed, so backtracking never
changes the outcome.  Fuel only forces termination. -/
def scanOuter : Nat → List Char → Option (List Char × List Char)
  | 0, _ => none
  | _ + 1, [] => none
  | _ + 1, '\x7d' :: cs => some (['\x7d'], cs)
  | f + 1, '\x7b' :: cs =>
      match scanSimple cs with
      | some (inner, rest) =>
          (scanOuter f rest).map (fun p => ('\x7b' :: inner ++ p.1, p.2))
      | none => none
  | f + 1, c :: cs => (scanOuter f cs).map (fun p => (c :: p.1, p.2))

/-- Match of the recovery regex anchored at the current position. -/
def tryBlock : List Char → Option (List Char)
  | '\x7b' :: cs => (scanOuter (cs.length + 1) cs).map (fun p => '\x7b' :: p.1)
  | _ => none

/-- Leftmost match: `re.search` tries successive start positions and
returns the first that matches. -/
def firstBlockL : List Char → Option (List Char)
  | [] => none
  | c :: cs =>
      match tryBlock (c :: cs) with
      | some s => some s
      | none => firstBlockL cs

def firstBlock (t : String) : Option String := (firstBlockL t.data).map String.mk

/-- Parse attempt of ai_service.py 184-199: strict `json.loads`, then on
failure the regex recovery retried with `json.loads`; `none` is the path on
which the source raises `ValueError` into its outer handler. -/
def strictOrRecover (t : String) : Option JVal :=
  match jloads t with
  | some v => some v
  | none =>
      match firstBlock t with
      | some sub => jloads sub
      | none => none

/-- Processing of one raw model response (ai_service.py 167-245): strip,
de-fence, parse with recovery, reject falsy or non-dict results, normalize.
The Bool is the side-channel outcome: `false` on every path where the
source logs a parse/shape failure and returns the empty profile. -/
def extractResult (raw : String) : Profile × Bool :=
  let t := stripFence (pyStrip raw)
  match strictOrRecover t with
  | some v =>
      if !pyTruthy v || !isObjV v then (get_empty_profile_structure, false)
      else (normalize_profile_structure v, true)
  | none => (get_empty_profile_structure, false)

/-- Transcribes `extract_cv_data_deep` (ai_service.py 50-245).  The LLM call
is the opaque collaborator: its response text is the `response` argument,
and the availability check is the `aiAvailable` flag.  The whole body sits
in a `try/except Exception` returning the empty profile, so the function is
total and never propagates an exception. -/
def extract_cv_data_deep (aiAvailable : Bool) (cv_text : String) (response : String) : Profile :=
  if !aiAvailable then get_empty_profile_structure
  else if cv_text = "" || (pyStrip cv_text).length < 50 then get_empty_profile_structure
  else (extractResult response).1

/-- Transcribes `extract_cv_data` (ai_service.py 356-489): its first
statement returns `extract_cv_data_deep(cv_text)`, so the legacy
flat-schema body at lines 362-489 sits after an unconditional return and
never executes. -/
def extract_cv_data (aiAvailable : Bool) (cv_text : String) (response : String) : Profile :=
  extract_cv_data_deep aiAvailable cv_text response

/-!
The merge reconciler: update branch of `_perform_cv_extraction`
(app.py 2749-2888).  The stored row is the `SELECT` of line 2541: JSON and
text columns, each fetched by the MySQL connector as a string or NULL,
hence `Option String` fields.  The patch is the ordered list of
`update_parts`/`update_params` pairs; for the JSON columns the source
appends `json.dumps(section)` of the listed value, so the patch is modelled
at the value level (serialisation is the storage collaborator's detail).
-/

structure StoredProfile where
  identity : Option String
  career_intent : Option String
  professional_summary : Option String
  skills_json : Option String
  experience_json : Option String
  education_json : Option String
  projects_json : Option String
  achievements_json : Option String
  name : Option String
  email : Option String
  phone : Option String
  bio : Option String
  looking_for : Option String
  skills : Option String
deriving DecidableEq

/-- Column names of the patch, in the order the update branch tests them. -/
inductive PField where
  | identity | career_intent | professional_summary
  | skills_json | experience_json | education_json
  | projects_json | achievements_json
  | name | email | phone | bio | looking_for | skills
deriving DecidableEq

/-- A fetched column value as the Python value the helpers receive. -/
def ojv : Option String → JVal
  | none => .null
  | some s => .str s

/-- The stored value consulted by the guard of a given patch field. -/
def storedColumn (cur : StoredProfile) : PField → JVal
  | .identity => ojv cur.identity
  | .career_intent => ojv cur.career_intent
  | .professional_summary => ojv cur.professional_summary
  | .skills_json => ojv cur.skills_json
  | .experience_json => ojv cur.experience_json
  | .education_json => ojv cur.education_json
  | .projects_json => ojv cur.projects_json
  | .achievements_json => ojv cur.achievements_json
  | .name => ojv cur.name
  | .email => ojv cur.email
  | .phone => ojv cur.phone
  | .bio => ojv cur.bio
  | .looking_for => ojv cur.looking_for
  | .skills => ojv cur.skills

/-- Python `", ".join(l)` over an encoded list of strings (the source only
joins lists produced by the normalizer, whose elements are strings). -/
def joinComma : JVal → String
  | .acons h .anil => strval h
  | .acons h t => strval h ++ ", " ++ joinComma t
  | _ => ""

/-- One conditional patch entry (`update_parts.append` under its guard). -/
def entryIf (c : Bool) (f : PField) (v : JVal) : List (PField × JVal) :=
  if c then [(f, v)] else []

/-- Transcribes the update branch of `_perform_cv_extraction`
(app.py 2749-2872): the data preparation of lines 2516-2538 followed by the
fourteen guarded patch entries in source order.  `p` is the extracted
profile as returned by `extract_cv_data_deep`. -/
def reconcile (cur : StoredProfile) (p : Profile) : List (PField × JVal) :=
  let pd := p.toJVal
  let identity_data := pyOr (jgetD pd "identity" .onil) .onil
  let career_intent_data := pyOr (jgetD pd "career_intent" .onil) .onil
  let skills_data := pyOr (jgetD pd "skills" .onil) .onil
  let experience_data := pyOr (jgetD pd "experience" .anil) .anil
  let education_data := pyOr (jgetD pd "education" .anil) .anil
  let projects_data := pyOr (jgetD pd "projects" .anil) .anil
  let achievements_data := pyOr (jgetD pd "achievements" .anil) .anil
  let identity := jgetD pd "identity" .onil
  let career_intent := jgetD pd "career_intent" .onil
  let extracted_summary := jgetD pd "professional_summary" (.str "")
  let extracted_name := jgetD identity "name" (.str "")
  let extracted_email := jgetD identity "email" (.str "")
  let extracted_phone := jgetD identity "phone" (.str "")
  let target_roles := jgetD career_intent "target_roles" .anil
  let extracted_looking_for :=
    if pyTruthy (jget career_intent "target_roles") && jlen target_roles > 0
    then JVal.str (joinComma target_roles) else JVal.str ""
  let skdict := jgetD pd "skills" .onil
  let techD := jgetD skdict "technical" .anil
  let extracted_skills_legacy :=
    if pyTruthy (jget skdict "technical") && jlen techD > 0
    then JVal.str (joinComma techD) else JVal.str ""
  entryIf (is_empty_json (ojv cur.identity) && has_non_empty_data pd "identity"
            && is_valid_extracted_value identity_data)
    .identity identity_data ++
  entryIf (is_empty_json (ojv cur.career_intent) && has_non_empty_data pd "career_intent"
            && is_valid_extracted_value career_intent_data)
    .career_intent career_intent_data ++
  entryIf (is_empty_text (ojv cur.professional_summary) && !is_empty_text extracted_summary
            && is_valid_extracted_value extracted_summary)
    .professional_summary extracted_summary ++
  entryIf (is_empty_json (ojv cur.skills_json) && has_non_empty_data pd "skills"
            && is_valid_extracted_value skills_data)
    .skills_json skills_data ++
  entryIf (is_empty_json (ojv cur.experience_json) && has_non_empty_data pd "experience"
            && is_valid_extracted_value experience_data)
    .experience_json experience_data ++
  entryIf (is_empty_json (ojv cur.education_json) && has_non_empty_data pd "education"
            && is_valid_extracted_value education_data)
    .education_json education_data ++
  entryIf (is_empty_json (ojv cur.projects_json) && has_non_empty_data pd "projects"
            && is_valid_extracted_value projects_data)
    .projects_json projects_data ++
  entryIf (is_empty_json (ojv cur.achievements_json) && has_non_empty_data pd "achievements"
            && is_valid_extracted_value achievements_data)
    .achievements_json achievements_data ++
  entryIf (is_empty_text (ojv cur.name) && has_non_empty_identity_field identity "name"
            && is_valid_extracted_value extracted_name)
    .name extracted_name ++
  entryIf (is_empty_text (ojv cur.email) && has_non_empty_identity_field identity "email"
            && is_valid_extracted_value extracted_email)
    .email extracted_email ++
  entryIf (is_empty_text (ojv cur.phone) && has_non_empty_identity_field identity "phone"
            && is_valid_extracted_value extracted_phone)
    .phone extracted_phone ++
  entryIf (is_empty_text (ojv cur.bio) && !is_empty_text extracted_summary
            && is_valid_extracted_value extracted_summary)
    .bio extracted_summary ++
  entryIf (is_empty_text (ojv cur.looking_for) && !is_empty_text extracted_looking_for
            && is_valid_extracted_value extracted_looking_for)
    .looking_for extracted_looking_for ++
  entryIf (is_empty_text (ojv cur.skills) && !is_empty_text extracted_skills_legacy
            && is_valid_extracted_value extracted_skills_legacy)
    .skills extracted_skills_legacy

/-!
Spec-side definitions.  `spec_is_empty` follows the words of the spec's
emptiness invariant (section 3) and is compared against the source's
`is_empty_json`.  The amended rules for scalar/list coercion express the
normalizer's field rules as the counterexamples force them.  `Interior` /
`IsBlock` is the grammar of the recovery regex, and `specLargestBlock`
follows the spec's words "largest balanced substring".
-/

/-- Modelled from the spec: "a field is empty iff it is null, an empty
string (after trimming), an empty list, an empty object, or an object/list
whose members are all themselves empty under this same rule". -/
def spec_is_empty : JVal → Bool
  | .null => true
  | .str s => pyStrip s = ""
  | .anil => true
  | .acons h t => spec_is_empty h && spec_is_empty t
  | .onil => true
  | .ocons _ v t => spec_is_empty v && spec_is_empty t
  | _ => false

/-- The amended emptiness rule: the spec's recursive rule with the string
clause widened to the source's sentinel strings (a string is also empty
when it strips to `'null'` case-insensitively, `'{}'` or `'[]'`). -/
def spec_is_empty_amended : JVal → Bool
  | .null => true
  | .str s =>
      pyStrip s = "" || pyLower (pyStrip s) = "null"
        || pyStrip s = "\x7b\x7d" || pyStrip s = "[]"
  | .anil => true
  | .acons h t => spec_is_empty_amended h && spec_is_empty_amended t
  | .onil => true
  | .ocons _ v t => spec_is_empty_amended v && spec_is_empty_amended t
  | _ => false

/-- The amended scalar coercion rule: only null and the exact empty string
are coerced to null; every other value is kept as its trimmed string
form (so whitespace-only strings are kept as `""` and non-strings as their
string representation). -/
def amendedScalarRule (v : JVal) : Option String :=
  if v = .null ∨ v = .str "" then none else some (pyStrip (pyStr v))

/-- Lean list of an encoded array's members. -/
def memberList : JVal → List JVal
  | .acons h t => h :: memberList t
  | _ => []

/-- The amended list coercion rule: a non-list is null; a list keeps its
truthy elements, each as its trimmed string form, and stays a list even
when that leaves it empty. -/
def amendedListRule (v : JVal) : Option (List String) :=
  if isArrV v then
    some (((memberList v).filter (fun x => pyTruthy x)).map (fun x => pyStrip (pyStr x)))
  else none

/-- The amended achievements rule: like `amendedListRule` but an all-falsy
list collapses to null, and a non-blank string is wrapped in a one-element
list. -/
def amendedAchievementsRule (v : JVal) : Option (List String) :=
  if isArrV v then
    if ((memberList v).filter (fun x => pyTruthy x)) = [] then none
    else some (((memberList v).filter (fun x => pyTruthy x)).map (fun x => pyStrip (pyStr x)))
  else if isStrV v then
    if pyStrip (strval v) ≠ "" then some [pyStrip (strval v)] else none
  else none

/-- Interior of the recovery regex's brace block: a mix of non-brace
characters and complete one-level nested simple blocks. -/
inductive Interior : List Char → Prop where
  | nil : Interior []
  | chr {c : Char} {cs : List Char} :
      c ≠ '\x7b' → c ≠ '\x7d' → Interior cs → Interior (c :: cs)
  | blk {b cs : List Char} :
      (∀ c ∈ b, c ≠ '\x7b' ∧ c ≠ '\x7d') → Interior cs →
      Interior ('\x7b' :: b ++ '\x7d' :: cs)

/-- A balanced brace block tolerating one level of nesting. -/
def IsBlock (s : List Char) : Prop :=
  ∃ int, s = '\x7b' :: int ++ ['\x7d'] ∧ Interior int

/-- Some block of the recovery grammar starts at position `j` of `l`. -/
def BlockStartsAt (l : List Char) (j : Nat) : Prop :=
  ∃ s rest, IsBlock s ∧ l.drop j = s ++ rest

/-- All regex matches, one candidate per start position. -/
def allBlocks (l : List Char) : List (List Char) :=
  (List.range (l.length + 1)).filterMap (fun i => tryBlock (l.drop i))

def pickLargest : Option (List Char) → List (List Char) → Option (List Char)
  | acc, [] => acc
  | none, c :: cs => pickLargest (some c) cs
  | some b, c :: cs => pickLargest (some (if b.length < c.length then c else b)) cs

/-- Modelled from the spec: "search for the largest balanced `{...}`
substring (one level of nested braces must be tolerated)" — the longest
match of the recovery grammar anywhere in the text. -/
def specLargestBlock (t : String) : Option String :=
  (pickLargest none (allBlocks t.data)).map String.mk

/-- Trimmed-and-non-empty check for an optional scalar leaf, the domain on
which re-normalization is the identity. -/
def goodStr : Option String → Bool
  | none => true
  | some s => pyStrip s = s && s ≠ ""

def goodList : Option (List String) → Bool
  | none => true
  | some l => l.all (fun s => pyStrip s = s && s ≠ "")

def goodExp (e : ExperienceEntry) : Bool :=
  goodStr e.company && goodStr e.role && goodStr e.duration
    && goodList e.responsibilities

def goodEdu (e : EducationEntry) : Bool :=
  goodStr e.degree && goodStr e.institution && goodStr e.year
    && goodStr e.specialization

def goodProj (e : ProjectEntry) : Bool :=
  goodStr e.name && goodStr e.tech_stack && goodStr e.impact

/-- Profiles with no empty-string leaves, trim-fixed leaves, and a
non-empty achievements list when present: the domain forced by the
idempotence counterexamples. -/
def GoodProfile (p : Profile) : Bool :=
  goodStr p.identity.name && goodStr p.identity.email
    && goodStr p.identity.phone && goodStr p.identity.location
    && goodList p.identity.links
    && goodStr p.professional_summary
    && goodList p.skills.technical && goodList p.skills.tools
    && goodList p.skills.soft
    && (match p.experience with
        | none => true
        | some l => l.all goodExp)
    && (match p.education with
        | none => true
        | some l => l.all goodEdu)
    && (match p.projects with
        | none => true
        | some l => l.all goodProj)
    && goodList p.achievements
    && p.achievements ≠ some []

/-!
Helper lemmas.
-/

theorem mem_entryIf {e : PField × JVal} {c : Bool} {f : PField} {v : JVal} :
    e ∈ entryIf c f v ↔ c = true ∧ e = (f, v) := by
  cases c <;> simp [entryIf]

theorem is_empty_text_imp_json {v : JVal} (h : is_empty_text v = true) :
    is_empty_json v = true := by
  cases v <;> simp_all [is_empty_text, is_empty_json]

theorem is_valid_of_not_empty :
    ∀ {v : JVal}, is_empty_json v = false → is_valid_extracted_value v = true := by
  intro v
  induction v with
  | null => simp [is_empty_json]
  | bool b => simp [is_valid_extracted_value]
  | num n => simp [is_valid_extracted_value]
  | str s =>
      intro h
      simp only [is_empty_json, Bool.or_eq_false_iff] at h
      simp [is_valid_extracted_value, h.1.1.1]
  | anil => simp [is_empty_json]
  | acons hd tl ih1 ih2 =>
      intro h
      simp only [is_empty_json, Bool.and_eq_false_iff] at h
      rcases h with h | h
      · simp [is_valid_extracted_value, ih1 h]
      · simp [is_valid_extracted_value, ih2 h]
  | onil => simp [is_empty_json]
  | ocons k v t ih1 ih2 =>
      intro h
      simp only [is_empty_json, Bool.and_eq_false_iff] at h
      rcases h with h | h
      · simp [is_valid_extracted_value, ih1 h]
      · simp [is_valid_extracted_value, ih2 h]

theorem anyNonEmpty_jarr (l : List JVal) :
    anyNonEmptyMember (jarr l) = !is_empty_json (jarr l) := by
  induction l with
  | nil => simp [jarr, anyNonEmptyMember, is_empty_json]
  | cons x xs ih =>
      simp [jarr, anyNonEmptyMember, is_empty_json, ih]

theorem anyNonEmpty_jobj (l : List (String × JVal)) :
    anyNonEmptyMember (jobj l) = !is_empty_json (jobj l) := by
  induction l with
  | nil => simp [jobj, anyNonEmptyMember, is_empty_json]
  | cons x xs ih =>
      cases x with
      | mk k v => simp [jobj, anyNonEmptyMember, is_empty_json, ih]

theorem jget_pd_identity (p : Profile) :
    jget p.toJVal "identity" = p.identity.toJVal := rfl

theorem jget_pd_summary (p : Profile) :
    jget p.toJVal "professional_summary" = optStrJ p.professional_summary := rfl

theorem jget_pd_skills (p : Profile) :
    jget p.toJVal "skills" = p.skills.toJVal := rfl

theorem jget_pd_experience (p : Profile) :
    jget p.toJVal "experience" = optSectJ ExperienceEntry.toJVal p.experience := rfl

theorem jget_pd_education (p : Profile) :
    jget p.toJVal "education" = optSectJ EducationEntry.toJVal p.education := rfl

theorem jget_pd_projects (p : Profile) :
    jget p.toJVal "projects" = optSectJ ProjectEntry.toJVal p.projects := rfl

theorem jget_pd_achievements (p : Profile) :
    jget p.toJVal "achievements" = optListJ p.achievements := rfl

theorem jget_pd_career (p : Profile) :
    jget p.toJVal "career_intent" = .null := rfl

theorem jgetD_pd_identity (p : Profile) (d : JVal) :
    jgetD p.toJVal "identity" d = p.identity.toJVal := rfl

theorem jgetD_pd_summary (p : Profile) (d : JVal) :
    jgetD p.toJVal "professional_summary" d = optStrJ p.professional_summary := rfl

theorem jgetD_pd_skills (p : Profile) (d : JVal) :
    jgetD p.toJVal "skills" d = p.skills.toJVal := rfl

theorem jgetD_pd_experience (p : Profile) (d : JVal) :
    jgetD p.toJVal "experience" d = optSectJ ExperienceEntry.toJVal p.experience := rfl

theorem jgetD_pd_education (p : Profile) (d : JVal) :
    jgetD p.toJVal "education" d = optSectJ EducationEntry.toJVal p.education := rfl

theorem jgetD_pd_projects (p : Profile) (d : JVal) :
    jgetD p.toJVal "projects" d = optSectJ ProjectEntry.toJVal p.projects := rfl

theorem jgetD_pd_achievements (p : Profile) (d : JVal) :
    jgetD p.toJVal "achievements" d = optListJ p.achievements := rfl

theorem jgetD_pd_career (p : Profile) (d : JVal) :
    jgetD p.toJVal "career_intent" d = d := rfl

theorem jget_id_name (i : Identity) : jget i.toJVal "name" = optStrJ i.name := rfl

theorem jget_id_email (i : Identity) : jget i.toJVal "email" = optStrJ i.email := rfl

theorem jget_id_phone (i : Identity) : jget i.toJVal "phone" = optStrJ i.phone := rfl

theorem jgetD_id_name (i : Identity) (d : JVal) :
    jgetD i.toJVal "name" d = optStrJ i.name := rfl

theorem jgetD_id_email (i : Identity) (d : JVal) :
    jgetD i.toJVal "email" d = optStrJ i.email := rfl

theorem jgetD_id_phone (i : Identity) (d : JVal) :
    jgetD i.toJVal "phone" d = optStrJ i.phone := rfl

theorem mem_reconcile (cur : StoredProfile) (p : Profile) :
    ∀ e ∈ reconcile cur p, is_empty_json (storedColumn cur e.1) = true := by
  intro e he
  simp only [reconcile, List.append_assoc, List.mem_append, mem_entryIf] at he
  rcases he with ⟨hg, rfl⟩ | ⟨hg, rfl⟩ | ⟨hg, rfl⟩ | ⟨hg, rfl⟩ | ⟨hg, rfl⟩ |
    ⟨hg, rfl⟩ | ⟨hg, rfl⟩ | ⟨hg, rfl⟩ | ⟨hg, rfl⟩ | ⟨hg, rfl⟩ | ⟨hg, rfl⟩ |
    ⟨hg, rfl⟩ | ⟨hg, rfl⟩ | ⟨hg, rfl⟩ <;>
  rw [Bool.and_eq_true, Bool.and_eq_true] at hg <;>
  first
    | exact hg.1.1
    | exact is_empty_text_imp_json hg.1.1

/-!
Concrete fixtures used by witnesses and counterexamples.
-/

def fixtureStored : StoredProfile :=
  { identity := some "\x7b\"name\": \"Old\"\x7d", career_intent := none,
    professional_summary := some "Kept summary.", skills_json := none,
    experience_json := none, education_json := none, projects_json := none,
    achievements_json := none, name := some "Alice", email := none,
    phone := none, bio := none, looking_for := none, skills := none }

def emptyStored : StoredProfile :=
  { identity := none, career_intent := none, professional_summary := none,
    skills_json := none, experience_json := none, education_json := none,
    projects_json := none, achievements_json := none, name := none,
    email := none, phone := none, bio := none, looking_for := none,
    skills := none }

def fixtureProfile : Profile :=
  { identity := { name := some "Jane Doe", email := some "jane@x.io",
                  phone := none, location := none, links := none },
    professional_summary := some "Full-stack generalist.",
    skills := { technical := some ["Go", "Postgres"], tools := none,
                soft := none },
    experience := none, education := none, projects := none,
    achievements := none }

/-- C1: the reconciler never touches a field that is non-empty in the
existing stored profile — for every top-level column, including the legacy
scalar columns, if the stored value is not empty under `is_empty_json` then
the column does not appear in the computed patch. -/
theorem C1_nondestructive_merge (cur : StoredProfile) (p : Profile) (f : PField)
    (h : is_empty_json (storedColumn cur f) = false) :
    f ∉ List.map Prod.fst (reconcile cur p) := by
  intro hf
  obtain ⟨e, he, hef⟩ := List.mem_map.mp hf
  have hm := mem_reconcile cur p e he
  rw [hef, h] at hm
  exact Bool.false_ne_true hm

/-- Witness for C1 at a stored profile whose `name` column holds "Alice". -/
theorem C1_nondestructive_merge_witness :
    is_empty_json (storedColumn fixtureStored PField.name) = false ∧
    PField.name ∉ List.map Prod.fst (reconcile fixtureStored fixtureProfile) :=
  ⟨by decide, C1_nondestructive_merge fixtureStored fixtureProfile PField.name (by decide)⟩

/-- C3 counterexample: the string "null" is empty for the source's
`is_empty_json` but is not empty under the spec's recursive emptiness rule,
so the claimed "iff" fails. -/
theorem C3_recursive_emptiness_counterexample :
    is_empty_json (.str "null") = true ∧ spec_is_empty (.str "null") = false := by
  decide

/-- C3 amended: the source's emptiness predicate is the spec's recursive
rule with the string clause widened to the sentinel strings `'null'`
(case-insensitive), `'{}'` and `'[]'`; the spec's three examples hold. -/
theorem C3_recursive_emptiness_amended :
    (∀ v, is_empty_json v = spec_is_empty_amended v) ∧
    is_empty_json (Profile.toJVal get_empty_profile_structure) = true ∧
    is_empty_json (jobj [("technical", .anil), ("tools", .anil), ("soft", .anil)]) = true ∧
    is_empty_json (jobj [("technical", jarr [.str "Python"])]) = false := by
  refine ⟨?_, by decide, by decide, by decide⟩
  intro v
  induction v with
  | null => rfl
  | bool b => rfl
  | num n => rfl
  | str s => rfl
  | anil => rfl
  | acons h t ih1 ih2 => simp [is_empty_json, spec_is_empty_amended, ih1, ih2]
  | onil => rfl
  | ocons k v t ih1 ih2 => simp [is_empty_json, spec_is_empty_amended, ih1, ih2]

theorem srcScalar_eq (v : JVal) : srcScalar v = amendedScalarRule v := by
  unfold srcScalar amendedScalarRule
  by_cases h1 : v = .null
  · simp [h1]
  · by_cases h2 : v = .str ""
    · simp [h1, h2]
    · simp [h1, h2]

theorem srcStrList_eq (v : JVal) :
    srcStrList v
      = ((memberList v).filter (fun x => pyTruthy x)).map (fun x => pyStrip (pyStr x)) := by
  induction v with
  | acons h t ih1 ih2 =>
      cases hh : pyTruthy h <;>
        simp [srcStrList, memberList, List.filter_cons, hh, ih2]
  | null => rfl
  | bool b => rfl
  | num n => rfl
  | str s => rfl
  | anil => rfl
  | onil => rfl
  | ocons k v t ih1 ih2 => rfl

theorem srcListField_eq (v : JVal) : srcListField v = amendedListRule v := by
  unfold srcListField amendedListRule
  cases hv : isArrV v <;> simp [hv, srcStrList_eq]

theorem srcCountTruthy_eq (v : JVal) :
    srcCountTruthy v = ((memberList v).filter (fun x => pyTruthy x)).length := by
  induction v with
  | acons h t ih1 ih2 =>
      cases hh : pyTruthy h <;>
        simp [srcCountTruthy, memberList, List.filter_cons, hh, ih2,
          Nat.add_comm]
  | null => rfl
  | bool b => rfl
  | num n => rfl
  | str s => rfl
  | anil => rfl
  | onil => rfl
  | ocons k v t ih1 ih2 => rfl

/-- C4 counterexample: a whitespace-only `identity.name` is kept as the
empty string (not coerced to null), and a numeric `identity.name` is kept
as its string form "5" (not coerced to null). -/
theorem C4_scalar_coercion_counterexample :
    (normalize_profile_structure (jobj [("identity", jobj [("name", .str "   ")])])).identity.name
      = some "" ∧
    (normalize_profile_structure (jobj [("identity", jobj [("name", .num 5)])])).identity.name
      = some "5" := by
  decide

/-- C4 amended: a scalar field is coerced to null exactly when it is absent,
null or the exact empty string; any other value (including whitespace-only
strings and non-strings) is kept as its trimmed string form, at every
scalar position (shown for identity.name, identity.email,
professional_summary, experience[i].company/role/duration). -/
theorem C4_scalar_coercion_amended :
    ∀ idv pv ev : JVal,
      (isObjV idv = true →
        (normalize_profile_structure (.ocons "identity" idv .onil)).identity.name
            = amendedScalarRule (jget idv "name") ∧
        (normalize_profile_structure (.ocons "identity" idv .onil)).identity.email
            = amendedScalarRule (jget idv "email")) ∧
      ((normalize_profile_structure (.ocons "professional_summary" pv .onil)).professional_summary
          = amendedScalarRule pv) ∧
      (isObjV ev = true →
        (normalize_profile_structure (.ocons "experience" (.acons ev .anil) .onil)).experience
          = some [{ company := amendedScalarRule (jget ev "company")
                    role := amendedScalarRule (jget ev "role")
                    duration := amendedScalarRule (jget ev "duration")
                    responsibilities := amendedListRule (jget ev "responsibilities") }]) := by
  intro idv pv ev
  refine ⟨fun h => ?_, ?_, fun h => ?_⟩
  · constructor <;>
      simp [normalize_profile_structure, jmem, jget, h, srcScalar_eq]
  · simp [normalize_profile_structure, jmem, jget, srcScalar_eq]
  · simp [normalize_profile_structure, jmem, jget, h, srcScalar_eq,
      srcListField_eq, buildExperience, buildExpEntry, isArrV]

/-- Witness for C4 at a whitespace-padded name and a padded company. -/
theorem C4_scalar_coercion_amended_witness :
    (normalize_profile_structure (.ocons "identity" (jobj [("name", .str " x ")]) .onil)).identity.name
      = amendedScalarRule (jget (jobj [("name", .str " x ")]) "name") ∧
    (normalize_profile_structure
        (.ocons "experience" (.acons (jobj [("company", .str " ACME ")]) .anil) .onil)).experience
      = some [{ company := amendedScalarRule (jget (jobj [("company", .str " ACME ")]) "company")
                role := amendedScalarRule (jget (jobj [("company", .str " ACME ")]) "role")
                duration := amendedScalarRule (jget (jobj [("company", .str " ACME ")]) "duration")
                responsibilities := amendedListRule (jget (jobj [("company", .str " ACME ")]) "responsibilities") }] :=
  ⟨((C4_scalar_coercion_amended (jobj [("name", .str " x ")]) .null
      (jobj [("company", .str " ACME ")])).1 (by decide)).1,
   (C4_scalar_coercion_amended (jobj [("name", .str " x ")]) .null
      (jobj [("company", .str " ACME ")])).2.2 (by decide)⟩

/-- C5 counterexample: a whitespace-only element of skills.technical is
kept as the empty string rather than dropped, and a list whose elements are
all falsy normalizes to the empty list rather than to null. -/
theorem C5_list_coercion_counterexample :
    (normalize_profile_structure
        (jobj [("skills", jobj [("technical", jarr [.str "   "])])])).skills.technical
      = some [""] ∧
    (normalize_profile_structure
        (jobj [("skills", jobj [("technical", jarr [.str ""])])])).skills.technical
      = some [] := by
  decide

/-- C5 amended: a list field is kept only if the value is an actual list;
falsy elements are dropped and the rest kept as trimmed string forms
(whitespace-only strings stay as empty strings, non-strings as their string
representation); the field keeps the resulting list even when empty —
except achievements, which becomes null when every element is falsy and
which wraps a non-blank string into a one-element list. -/
theorem C5_list_coercion_amended :
    ∀ skv av idv : JVal,
      (isObjV skv = true →
        (normalize_profile_structure (.ocons "skills" skv .onil)).skills.technical
            = amendedListRule (jget skv "technical") ∧
        (normalize_profile_structure (.ocons "skills" skv .onil)).skills.tools
            = amendedListRule (jget skv "tools") ∧
        (normalize_profile_structure (.ocons "skills" skv .onil)).skills.soft
            = amendedListRule (jget skv "soft")) ∧
      ((normalize_profile_structure (.ocons "achievements" av .onil)).achievements
          = amendedAchievementsRule av) ∧
      (isObjV idv = true →
        (normalize_profile_structure (.ocons "identity" idv .onil)).identity.links
            = amendedListRule (jget idv "links")) := by
  intro skv av idv
  refine ⟨fun h => ?_, ?_, fun h => ?_⟩
  · refine ⟨?_, ?_, ?_⟩ <;>
      simp [normalize_profile_structure, jmem, jget, h, srcListField_eq]
  · by_cases ha : isArrV av = true
    · cases hf : (memberList av).filter (fun x => pyTruthy x) <;>
        simp [normalize_profile_structure, jmem, jget, amendedAchievementsRule,
          ha, srcStrList_eq, srcCountTruthy_eq, hf]
    · simp at ha
      simp [normalize_profile_structure, jmem, jget, amendedAchievementsRule, ha]
  · simp [normalize_profile_structure, jmem, jget, h, srcListField_eq]

/-- Witness for C5 at concrete skills and identity objects. -/
theorem C5_list_coercion_amended_witness :
    (normalize_profile_structure
        (.ocons "skills" (jobj [("technical", jarr [.str " Go ", .null])]) .onil)).skills.technical
      = amendedListRule (jget (jobj [("technical", jarr [.str " Go ", .null])]) "technical") ∧
    (normalize_profile_structure
        (.ocons "identity" (jobj [("links", jarr [.str "x.io"])]) .onil)).identity.links
      = amendedListRule (jget (jobj [("links", jarr [.str "x.io"])]) "links") :=
  ⟨((C5_list_coercion_amended (jobj [("technical", jarr [.str " Go ", .null])]) .null
      (jobj [("links", jarr [.str "x.io"])])).1 (by decide)).1,
   (C5_list_coercion_amended (jobj [("technical", jarr [.str " Go ", .null])]) .null
      (jobj [("links", jarr [.str "x.io"])])).2.2 (by decide)⟩

/-- C6 counterexample: an achievements section bound to a non-blank string
is wrapped into a one-element list, and a professional_summary bound to a
number is string-coerced — neither is treated as absent (null), unlike the
truly absent sections. -/
theorem C6_wrong_type_counterexample :
    (normalize_profile_structure (jobj [("achievements", .str "Won award")])).achievements
      = some ["Won award"] ∧
    (normalize_profile_structure (jobj [])).achievements = none ∧
    (normalize_profile_structure (jobj [("professional_summary", .num 5)])).professional_summary
      = some "5" ∧
    (normalize_profile_structure (jobj [])).professional_summary = none := by
  decide

/-- C6 amended: absent sections keep their all-null defaults; identity and
skills bound to non-objects and experience/education/projects bound to
non-lists are treated as absent; but professional_summary bound to any
non-null, non-empty value is string-coerced, and achievements bound to a
non-blank string is wrapped into a one-element list. -/
theorem C6_absent_wrong_type_amended :
    (normalize_profile_structure .onil = get_empty_profile_structure) ∧
    (∀ v, isObjV v = false →
      (normalize_profile_structure (.ocons "identity" v .onil)).identity
        = get_empty_profile_structure.identity) ∧
    (∀ v, isObjV v = false →
      (normalize_profile_structure (.ocons "skills" v .onil)).skills
        = get_empty_profile_structure.skills) ∧
    (∀ v, isArrV v = false →
      (normalize_profile_structure (.ocons "experience" v .onil)).experience = none) ∧
    (∀ v, isArrV v = false →
      (normalize_profile_structure (.ocons "education" v .onil)).education = none) ∧
    (∀ v, isArrV v = false →
      (normalize_profile_structure (.ocons "projects" v .onil)).projects = none) ∧
    (∀ v, v ≠ .null → v ≠ .str "" →
      (normalize_profile_structure (.ocons "professional_summary" v .onil)).professional_summary
        = some (pyStrip (pyStr v))) ∧
    (∀ s, pyStrip s ≠ "" →
      (normalize_profile_structure (.ocons "achievements" (.str s) .onil)).achievements
        = some [pyStrip s]) := by
  refine ⟨by decide, fun v h => ?_, fun v h => ?_, fun v h => ?_, fun v h => ?_,
    fun v h => ?_, fun v h1 h2 => ?_, fun s h => ?_⟩
  · simp [normalize_profile_structure, jmem, jget, h]
  · simp [normalize_profile_structure, jmem, jget, h]
  · simp [normalize_profile_structure, jmem, jget, h]
  · simp [normalize_profile_structure, jmem, jget, h]
  · simp [normalize_profile_structure, jmem, jget, h]
  · simp [normalize_profile_structure, jmem, jget, srcScalar, h1, h2]
  · simp [normalize_profile_structure, jmem, jget, isArrV, isStrV, strval, h]

/-- Witness for C6 at concrete wrong-type sections. -/
theorem C6_absent_wrong_type_amended_witness :
    (normalize_profile_structure (.ocons "experience" (.str "foo") .onil)).experience = none ∧
    (normalize_profile_structure (.ocons "identity" (.str "foo") .onil)).identity
      = get_empty_profile_structure.identity :=
  ⟨C6_absent_wrong_type_amended.2.2.2.1 (.str "foo") (by decide),
   C6_absent_wrong_type_amended.2.1 (.str "foo") (by decide)⟩

theorem anyNonEmpty_identity (i : Identity) :
    anyNonEmptyMember i.toJVal = !is_empty_json i.toJVal :=
  anyNonEmpty_jobj _

theorem anyNonEmpty_skills (s : Skills) :
    anyNonEmptyMember s.toJVal = !is_empty_json s.toJVal :=
  anyNonEmpty_jobj _

theorem fill_identity (cur : StoredProfile) (p : Profile)
    (h1 : is_empty_json (ojv cur.identity) = true)
    (h2 : is_empty_json p.identity.toJVal = false) :
    (PField.identity, p.identity.toJVal) ∈ reconcile cur p := by
  have hv : is_valid_extracted_value p.identity.toJVal = true :=
    is_valid_of_not_empty h2
  have hn : has_non_empty_data p.toJVal "identity" = true := by
    have e : has_non_empty_data p.toJVal "identity"
        = anyNonEmptyMember p.identity.toJVal := rfl
    rw [e, anyNonEmpty_identity, h2]
    rfl
  simp only [reconcile, List.append_assoc, List.mem_append, mem_entryIf]
  refine Or.inl ⟨?_, rfl⟩
  simp only [h1, hn, Bool.true_and]
  exact hv

theorem fill_summary (cur : StoredProfile) (p : Profile)
    (h1 : is_empty_text (ojv cur.professional_summary) = true)
    (h2 : spec_is_empty (optStrJ p.professional_summary) = false) :
    (PField.professional_summary, optStrJ p.professional_summary) ∈ reconcile cur p := by
  cases hps : p.professional_summary with
  | none => rw [hps] at h2; simp [optStrJ, spec_is_empty] at h2
  | some s =>
      rw [hps] at h2
      simp only [optStrJ] at h2 ⊢
      simp only [spec_is_empty, decide_eq_false_iff_not] at h2
      have hne : pyStrip s ≠ "" := h2
      simp only [reconcile, List.append_assoc, List.mem_append, mem_entryIf,
        jgetD_pd_summary, hps, optStrJ]
      refine Or.inr (Or.inr (Or.inl ⟨?_, trivial⟩))
      rw [h1]
      simp [is_empty_text, is_valid_extracted_value, hne]

theorem fill_skills (cur : StoredProfile) (p : Profile)
    (h1 : is_empty_json (ojv cur.skills_json) = true)
    (h2 : is_empty_json p.skills.toJVal = false) :
    (PField.skills_json, p.skills.toJVal) ∈ reconcile cur p := by
  have hv : is_valid_extracted_value p.skills.toJVal = true :=
    is_valid_of_not_empty h2
  have hn : has_non_empty_data p.toJVal "skills" = true := by
    have e : has_non_empty_data p.toJVal "skills"
        = anyNonEmptyMember p.skills.toJVal := rfl
    rw [e, anyNonEmpty_skills, h2]
    rfl
  simp only [reconcile, List.append_assoc, List.mem_append, mem_entryIf]
  refine Or.inr (Or.inr (Or.inr (Or.inl ⟨?_, rfl⟩)))
  simp only [h1, hn, Bool.true_and]
  exact hv

theorem fill_experience (cur : StoredProfile) (p : Profile)
    (h1 : is_empty_json (ojv cur.experience_json) = true)
    (h2 : is_empty_json (optSectJ ExperienceEntry.toJVal p.experience) = false) :
    (PField.experience_json, optSectJ ExperienceEntry.toJVal p.experience)
      ∈ reconcile cur p := by
  cases hx : p.experience with
  | none => rw [hx] at h2; simp [optSectJ, is_empty_json] at h2
  | some l =>
      cases l with
      | nil => rw [hx] at h2; simp [optSectJ, jarr, is_empty_json] at h2
      | cons a as =>
          rw [hx] at h2
          have hv : is_valid_extracted_value
              (optSectJ ExperienceEntry.toJVal (some (a :: as))) = true :=
            is_valid_of_not_empty h2
          simp only [optSectJ] at h2
          have hn : has_non_empty_data p.toJVal "experience" = true := by
            have e : has_non_empty_data p.toJVal "experience"
                = anyNonEmptyMember (jarr ((a :: as).map ExperienceEntry.toJVal)) := by
              simp only [has_non_empty_data, jget_pd_experience, hx, optSectJ,
                List.map_cons, jarr]
            rw [e, anyNonEmpty_jarr, h2]
            rfl
          simp only [reconcile, List.append_assoc, List.mem_append, mem_entryIf,
            jgetD_pd_experience, hx]
          refine Or.inr (Or.inr (Or.inr (Or.inr (Or.inl ⟨?_, rfl⟩))))
          simp only [h1, hn, Bool.true_and]
          exact hv

theorem fill_education (cur : StoredProfile) (p : Profile)
    (h1 : is_empty_json (ojv cur.education_json) = true)
    (h2 : is_empty_json (optSectJ EducationEntry.toJVal p.education) = false) :
    (PField.education_json, optSectJ EducationEntry.toJVal p.education)
      ∈ reconcile cur p := by
  cases hx : p.education with
  | none => rw [hx] at h2; simp [optSectJ, is_empty_json] at h2
  | some l =>
      cases l with
      | nil => rw [hx] at h2; simp [optSectJ, jarr, is_empty_json] at h2
      | cons a as =>
          rw [hx] at h2
          have hv : is_valid_extracted_value
              (optSectJ EducationEntry.toJVal (some (a :: as))) = true :=
            is_valid_of_not_empty h2
          simp only [optSectJ] at h2
          have hn : has_non_empty_data p.toJVal "education" = true := by
            have e : has_non_empty_data p.toJVal "education"
                = anyNonEmptyMember (jarr ((a :: as).map EducationEntry.toJVal)) := by
              simp only [has_non_empty_data, jget_pd_education, hx, optSectJ,
                List.map_cons, jarr]
            rw [e, anyNonEmpty_jarr, h2]
            rfl
          simp only [reconcile, List.append_assoc, List.mem_append, mem_entryIf,
            jgetD_pd_education, hx]
          refine Or.inr (Or.inr (Or.inr (Or.inr (Or.inr (Or.inl ⟨?_, rfl⟩)))))
          simp only [h1, hn, Bool.true_and]
          exact hv

theorem fill_projects (cur : StoredProfile) (p : Profile)
    (h1 : is_empty_json (ojv cur.projects_json) = true)
    (h2 : is_empty_json (optSectJ ProjectEntry.toJVal p.projects) = false) :
    (PField.projects_json, optSectJ ProjectEntry.toJVal p.projects)
      ∈ reconcile cur p := by
  cases hx : p.projects with
  | none => rw [hx] at h2; simp [optSectJ, is_empty_json] at h2
  | some l =>
      cases l with
      | nil => rw [hx] at h2; simp [optSectJ, jarr, is_empty_json] at h2
      | cons a as =>
          rw [hx] at h2
          have hv : is_valid_extracted_value
              (optSectJ ProjectEntry.toJVal (some (a :: as))) = true :=
            is_valid_of_not_empty h2
          simp only [optSectJ] at h2
          have hn : has_non_empty_data p.toJVal "projects" = true := by
            have e : has_non_empty_data p.toJVal "projects"
                = anyNonEmptyMember (jarr ((a :: as).map ProjectEntry.toJVal)) := by
              simp only [has_non_empty_data, jget_pd_projects, hx, optSectJ,
                List.map_cons, jarr]
            rw [e, anyNonEmpty_jarr, h2]
            rfl
          simp only [reconcile, List.append_assoc, List.mem_append, mem_entryIf,
            jgetD_pd_projects, hx]
          refine Or.inr (Or.inr (Or.inr (Or.inr (Or.inr (Or.inr (Or.inl ⟨?_, rfl⟩))))))
          simp only [h1, hn, Bool.true_and]
          exact hv

theorem fill_achievements (cur : StoredProfile) (p : Profile)
    (h1 : is_empty_json (ojv cur.achievements_json) = true)
    (h2 : is_empty_json (optListJ p.achievements) = false) :
    (PField.achievements_json, optListJ p.achievements) ∈ reconcile cur p := by
  cases hx : p.achievements with
  | none => rw [hx] at h2; simp [optListJ, is_empty_json] at h2
  | some l =>
      cases l with
      | nil => rw [hx] at h2; simp [optListJ, jarr, is_empty_json] at h2
      | cons a as =>
          rw [hx] at h2
          have hv : is_valid_extracted_value (optListJ (some (a :: as))) = true :=
            is_valid_of_not_empty h2
          simp only [optListJ] at h2
          have hn : has_non_empty_data p.toJVal "achievements" = true := by
            have e : has_non_empty_data p.toJVal "achievements"
                = anyNonEmptyMember (jarr ((a :: as).map JVal.str)) := by
              simp only [has_non_empty_data, jget_pd_achievements, hx, optListJ,
                List.map_cons, jarr]
            rw [e, anyNonEmpty_jarr, h2]
            rfl
          simp only [reconcile, List.append_assoc, List.mem_append, mem_entryIf,
            jgetD_pd_achievements, hx]
          refine Or.inr (Or.inr (Or.inr (Or.inr (Or.inr (Or.inr (Or.inr (Or.inl ⟨?_, rfl⟩)))))))
          simp only [h1, hn, Bool.true_and]
          exact hv

/-- Extraction whose identity section carries only the sentinel string
"null": non-empty under the spec's recursive rule, empty under the
source's `is_empty_json`. -/
def sentinelProfile : Profile :=
  { get_empty_profile_structure with
    identity := { name := some "null", email := none, phone := none,
                  location := none, links := none } }

theorem spec_empty_ojv_imp_json (o : Option String)
    (h : spec_is_empty (ojv o) = true) : is_empty_json (ojv o) = true := by
  cases o with
  | none => rfl
  | some s =>
      simp only [ojv, spec_is_empty, decide_eq_true_eq] at h
      simp [ojv, is_empty_json, h]

theorem spec_empty_ojv_imp_text (o : Option String)
    (h : spec_is_empty (ojv o) = true) : is_empty_text (ojv o) = true := by
  cases o with
  | none => rfl
  | some s =>
      simp only [ojv, spec_is_empty, decide_eq_true_eq] at h
      simp [ojv, is_empty_text, h]

/-- C2 counterexample, with both premises taken under the spec's recursive
emptiness rule: the stored identity column is NULL (empty), the extracted
identity section has name "null" and is therefore non-empty under the
rule, yet the patch omits identity — `has_non_empty_data` judges the
section's members by the source's wider `is_empty_json`, under which the
sentinel string "null" counts as empty. -/
theorem C2_fill_property_counterexample :
    spec_is_empty (ojv emptyStored.identity) = true ∧
    spec_is_empty sentinelProfile.identity.toJVal = false ∧
    PField.identity ∉ List.map Prod.fst (reconcile emptyStored sentinelProfile) := by
  decide

/-- C2 amended: with the stored side empty under the spec's recursive
rule, professional_summary is filled exactly as claimed; each JSON section
(identity, skills, experience, education, projects, achievements) is
filled with exactly the whole extracted section whenever that section is
non-empty under the source's wider emptiness predicate of C3's amendment —
an extracted section whose members are all sentinel-or-blank is treated as
empty and omitted, even though the spec's rule calls it non-empty. -/
theorem C2_fill_property_amended (cur : StoredProfile) (p : Profile) :
    (spec_is_empty (ojv cur.identity) = true →
      is_empty_json p.identity.toJVal = false →
        (PField.identity, p.identity.toJVal) ∈ reconcile cur p) ∧
    (spec_is_empty (ojv cur.professional_summary) = true →
      spec_is_empty (optStrJ p.professional_summary) = false →
        (PField.professional_summary, optStrJ p.professional_summary) ∈ reconcile cur p) ∧
    (spec_is_empty (ojv cur.skills_json) = true →
      is_empty_json p.skills.toJVal = false →
        (PField.skills_json, p.skills.toJVal) ∈ reconcile cur p) ∧
    (spec_is_empty (ojv cur.experience_json) = true →
      is_empty_json (optSectJ ExperienceEntry.toJVal p.experience) = false →
        (PField.experience_json, optSectJ ExperienceEntry.toJVal p.experience) ∈ reconcile cur p) ∧
    (spec_is_empty (ojv cur.education_json) = true →
      is_empty_json (optSectJ EducationEntry.toJVal p.education) = false →
        (PField.education_json, optSectJ EducationEntry.toJVal p.education) ∈ reconcile cur p) ∧
    (spec_is_empty (ojv cur.projects_json) = true →
      is_empty_json (optSectJ ProjectEntry.toJVal p.projects) = false →
        (PField.projects_json, optSectJ ProjectEntry.toJVal p.projects) ∈ reconcile cur p) ∧
    (spec_is_empty (ojv cur.achievements_json) = true →
      is_empty_json (optListJ p.achievements) = false →
        (PField.achievements_json, optListJ p.achievements) ∈ reconcile cur p) :=
  ⟨fun h1 => fill_identity cur p (spec_empty_ojv_imp_json _ h1),
   fun h1 => fill_summary cur p (spec_empty_ojv_imp_text _ h1),
   fun h1 => fill_skills cur p (spec_empty_ojv_imp_json _ h1),
   fun h1 => fill_experience cur p (spec_empty_ojv_imp_json _ h1),
   fun h1 => fill_education cur p (spec_empty_ojv_imp_json _ h1),
   fun h1 => fill_projects cur p (spec_empty_ojv_imp_json _ h1),
   fun h1 => fill_achievements cur p (spec_empty_ojv_imp_json _ h1)⟩

/-- Witness for C2 on a NULL-columned stored profile and a concrete
extraction: the skills section and the professional summary are filled. -/
theorem C2_fill_property_amended_witness :
    (PField.skills_json, fixtureProfile.skills.toJVal) ∈ reconcile emptyStored fixtureProfile ∧
    (PField.professional_summary, optStrJ fixtureProfile.professional_summary)
      ∈ reconcile emptyStored fixtureProfile :=
  ⟨(C2_fill_property_amended emptyStored fixtureProfile).2.2.1 (by decide) (by decide),
   (C2_fill_property_amended emptyStored fixtureProfile).2.1 (by decide) (by decide)⟩

theorem srcScalar_optStrJ (o : Option String) (h : goodStr o = true) :
    srcScalar (optStrJ o) = o := by
  cases o with
  | none => rfl
  | some s =>
      simp only [goodStr, Bool.and_eq_true, decide_eq_true_eq] at h
      simp [optStrJ, srcScalar, pyStr, h.1, h.2]

theorem isArrV_jarr (l : List JVal) : isArrV (jarr l) = true := by
  cases l <;> rfl

theorem memberList_jarr (l : List JVal) : memberList (jarr l) = l := by
  induction l with
  | nil => rfl
  | cons x xs ih => simp [jarr, memberList, ih]

theorem srcStrList_strs (l : List String)
    (h : ∀ s ∈ l, pyStrip s = s ∧ s ≠ "") :
    srcStrList (jarr (l.map .str)) = l := by
  induction l with
  | nil => rfl
  | cons s t ih =>
      have hs := h s (by simp)
      simp [jarr, srcStrList, pyTruthy, pyStr, hs.1, hs.2,
        ih (fun x hx => h x (by simp [hx]))]

theorem goodList_forall {l : List String} (h : goodList (some l) = true) :
    ∀ s ∈ l, pyStrip s = s ∧ s ≠ "" := by
  intro s hs
  simp only [goodList, List.all_eq_true, Bool.and_eq_true, decide_eq_true_eq] at h
  exact h s hs

theorem srcListField_optListJ (o : Option (List String)) (h : goodList o = true) :
    srcListField (optListJ o) = o := by
  cases o with
  | none => rfl
  | some l =>
      simp only [optListJ, srcListField, isArrV_jarr, if_pos]
      rw [srcStrList_strs l (goodList_forall h)]

theorem jget_exp_company (e : ExperienceEntry) :
    jget e.toJVal "company" = optStrJ e.company := rfl

theorem jget_exp_role (e : ExperienceEntry) :
    jget e.toJVal "role" = optStrJ e.role := rfl

theorem jget_exp_duration (e : ExperienceEntry) :
    jget e.toJVal "duration" = optStrJ e.duration := rfl

theorem jget_exp_resp (e : ExperienceEntry) :
    jget e.toJVal "responsibilities" = optListJ e.responsibilities := rfl

theorem buildExpEntry_toJVal (e : ExperienceEntry) (h : goodExp e = true) :
    buildExpEntry e.toJVal = e := by
  simp only [goodExp, Bool.and_eq_true] at h
  obtain ⟨⟨⟨hc, hr⟩, hd⟩, hresp⟩ := h
  simp only [buildExpEntry, jget_exp_company, jget_exp_role, jget_exp_duration,
    jget_exp_resp, srcScalar_optStrJ _ hc, srcScalar_optStrJ _ hr,
    srcScalar_optStrJ _ hd, srcListField_optListJ _ hresp]

theorem isObjV_expToJVal (e : ExperienceEntry) : isObjV e.toJVal = true := rfl

theorem buildExperience_map (l : List ExperienceEntry) (h : l.all goodExp = true) :
    buildExperience (jarr (l.map ExperienceEntry.toJVal)) = l := by
  induction l with
  | nil => rfl
  | cons a as ih =>
      simp only [List.all_cons, Bool.and_eq_true] at h
      simp [jarr, buildExperience, isObjV_expToJVal, buildExpEntry_toJVal a h.1,
        ih h.2]

theorem jget_edu_degree (e : EducationEntry) :
    jget e.toJVal "degree" = optStrJ e.degree := rfl

theorem jget_edu_institution (e : EducationEntry) :
    jget e.toJVal "institution" = optStrJ e.institution := rfl

theorem jget_edu_year (e : EducationEntry) :
    jget e.toJVal "year" = optStrJ e.year := rfl

theorem jget_edu_spec (e : EducationEntry) :
    jget e.toJVal "specialization" = optStrJ e.specialization := rfl

theorem buildEduEntry_toJVal (e : EducationEntry) (h : goodEdu e = true) :
    buildEduEntry e.toJVal = e := by
  simp only [goodEdu, Bool.and_eq_true] at h
  obtain ⟨⟨⟨hd, hi⟩, hy⟩, hs⟩ := h
  simp only [buildEduEntry, jget_edu_degree, jget_edu_institution, jget_edu_year,
    jget_edu_spec, srcScalar_optStrJ _ hd, srcScalar_optStrJ _ hi,
    srcScalar_optStrJ _ hy, srcScalar_optStrJ _ hs]

theorem isObjV_eduToJVal (e : EducationEntry) : isObjV e.toJVal = true := rfl

theorem buildEducation_map (l : List EducationEntry) (h : l.all goodEdu = true) :
    buildEducation (jarr (l.map EducationEntry.toJVal)) = l := by
  induction l with
  | nil => rfl
  | cons a as ih =>
      simp only [List.all_cons, Bool.and_eq_true] at h
      simp [jarr, buildEducation, isObjV_eduToJVal, buildEduEntry_toJVal a h.1,
        ih h.2]

theorem jget_proj_name (e : ProjectEntry) :
    jget e.toJVal "name" = optStrJ e.name := rfl

theorem jget_proj_stack (e : ProjectEntry) :
    jget e.toJVal "tech_stack" = optStrJ e.tech_stack := rfl

theorem jget_proj_impact (e : ProjectEntry) :
    jget e.toJVal "impact" = optStrJ e.impact := rfl

theorem buildProjEntry_toJVal (e : ProjectEntry) (h : goodProj e = true) :
    buildProjEntry e.toJVal = e := by
  simp only [goodProj, Bool.and_eq_true] at h
  obtain ⟨⟨hn, hs⟩, hi⟩ := h
  simp only [buildProjEntry, jget_proj_name, jget_proj_stack, jget_proj_impact,
    srcScalar_optStrJ _ hn, srcScalar_optStrJ _ hs, srcScalar_optStrJ _ hi]

theorem isObjV_projToJVal (e : ProjectEntry) : isObjV e.toJVal = true := rfl

theorem buildProjects_map (l : List ProjectEntry) (h : l.all goodProj = true) :
    buildProjects (jarr (l.map ProjectEntry.toJVal)) = l := by
  induction l with
  | nil => rfl
  | cons a as ih =>
      simp only [List.all_cons, Bool.and_eq_true] at h
      simp [jarr, buildProjects, isObjV_projToJVal, buildProjEntry_toJVal a h.1,
        ih h.2]

theorem norm_rt_identity (p : Profile)
    (h1 : goodStr p.identity.name = true) (h2 : goodStr p.identity.email = true)
    (h3 : goodStr p.identity.phone = true) (h4 : goodStr p.identity.location = true)
    (h5 : goodList p.identity.links = true) :
    (normalize_profile_structure p.toJVal).identity = p.identity := by
  simp [normalize_profile_structure, Profile.toJVal, Identity.toJVal,
    Skills.toJVal, jobj, jmem, jget, isObjV, srcScalar_optStrJ _ h1,
    srcScalar_optStrJ _ h2, srcScalar_optStrJ _ h3, srcScalar_optStrJ _ h4,
    srcListField_optListJ _ h5]

theorem norm_rt_summary (p : Profile) (h : goodStr p.professional_summary = true) :
    (normalize_profile_structure p.toJVal).professional_summary
      = p.professional_summary := by
  simp [normalize_profile_structure, Profile.toJVal, Identity.toJVal, jobj,
    jmem, jget, srcScalar_optStrJ _ h]

theorem norm_rt_skills (p : Profile)
    (h1 : goodList p.skills.technical = true) (h2 : goodList p.skills.tools = true)
    (h3 : goodList p.skills.soft = true) :
    (normalize_profile_structure p.toJVal).skills = p.skills := by
  simp [normalize_profile_structure, Profile.toJVal, Identity.toJVal,
    Skills.toJVal, jobj, jmem, jget, isObjV, srcListField_optListJ _ h1,
    srcListField_optListJ _ h2, srcListField_optListJ _ h3]

theorem norm_rt_experience (p : Profile)
    (h : (match p.experience with
          | none => true
          | some l => l.all goodExp) = true) :
    (normalize_profile_structure p.toJVal).experience = p.experience := by
  cases hx : p.experience with
  | none =>
      simp [normalize_profile_structure, Profile.toJVal, Identity.toJVal,
        Skills.toJVal, jobj, jmem, jget, hx, optSectJ, isArrV]
  | some l =>
      rw [hx] at h
      simp [normalize_profile_structure, Profile.toJVal, Identity.toJVal,
        Skills.toJVal, jobj, jmem, jget, hx, optSectJ, isArrV_jarr,
        buildExperience_map l h]

theorem norm_rt_education (p : Profile)
    (h : (match p.education with
          | none => true
          | some l => l.all goodEdu) = true) :
    (normalize_profile_structure p.toJVal).education = p.education := by
  cases hx : p.education with
  | none =>
      simp [normalize_profile_structure, Profile.toJVal, Identity.toJVal,
        Skills.toJVal, jobj, jmem, jget, hx, optSectJ, isArrV]
  | some l =>
      rw [hx] at h
      simp [normalize_profile_structure, Profile.toJVal, Identity.toJVal,
        Skills.toJVal, jobj, jmem, jget, hx, optSectJ, isArrV_jarr,
        buildEducation_map l h]

theorem norm_rt_projects (p : Profile)
    (h : (match p.projects with
          | none => true
          | some l => l.all goodProj) = true) :
    (normalize_profile_structure p.toJVal).projects = p.projects := by
  cases hx : p.projects with
  | none =>
      simp [normalize_profile_structure, Profile.toJVal, Identity.toJVal,
        Skills.toJVal, jobj, jmem, jget, hx, optSectJ, isArrV]
  | some l =>
      rw [hx] at h
      simp [normalize_profile_structure, Profile.toJVal, Identity.toJVal,
        Skills.toJVal, jobj, jmem, jget, hx, optSectJ, isArrV_jarr,
        buildProjects_map l h]

theorem filter_truthy_strs (l : List String)
    (h : ∀ s ∈ l, pyStrip s = s ∧ s ≠ "") :
    (l.map JVal.str).filter (fun x => pyTruthy x) = l.map JVal.str := by
  refine List.filter_eq_self.mpr ?_
  intro x hx
  obtain ⟨s, hs, rfl⟩ := List.mem_map.mp hx
  simpa [pyTruthy] using (h s hs).2

theorem norm_rt_achievements (p : Profile)
    (h1 : goodList p.achievements = true) (h2 : p.achievements ≠ some []) :
    (normalize_profile_structure p.toJVal).achievements = p.achievements := by
  cases hx : p.achievements with
  | none =>
      simp [normalize_profile_structure, Profile.toJVal, Identity.toJVal,
        Skills.toJVal, jobj, jmem, jget, hx, optListJ, isArrV, isStrV]
  | some l =>
      cases l with
      | nil => exact absurd hx h2
      | cons a as =>
          rw [hx] at h1
          have hall := goodList_forall h1
          have hcnt : srcCountTruthy (jarr ((a :: as).map JVal.str)) > 0 := by
            rw [srcCountTruthy_eq, memberList_jarr, filter_truthy_strs _ hall]
            simp
          have hsl := srcStrList_strs (a :: as) hall
          simp only [List.map_cons] at hcnt hsl
          simp [normalize_profile_structure, Profile.toJVal, Identity.toJVal,
            Skills.toJVal, jobj, jmem, jget, hx, optListJ, isArrV_jarr, hcnt,
            hsl]

theorem Profile.eq_of_fields {a b : Profile}
    (h1 : a.identity = b.identity)
    (h2 : a.professional_summary = b.professional_summary)
    (h3 : a.skills = b.skills) (h4 : a.experience = b.experience)
    (h5 : a.education = b.education) (h6 : a.projects = b.projects)
    (h7 : a.achievements = b.achievements) : a = b := by
  cases a; cases b; simp_all

/-- Serialisation of a normalized profile, as the caller's `json.dumps`
would emit it. -/
def serializeProfile (p : Profile) : String := dumps p.toJVal

set_option maxRecDepth 40000 in
/-- C8 counterexample: the text parses successfully, yet re-normalizing the
serialised normalization changes the result — the whitespace-only name is
kept as `""` on the first pass and coerced to null on the second. -/
theorem C8_idempotence_counterexample :
    jloads "\x7b\"identity\": \x7b\"name\": \"   \"\x7d\x7d" ≠ none ∧
    (extractResult (serializeProfile
        (extractResult "\x7b\"identity\": \x7b\"name\": \"   \"\x7d\x7d").1)).1
      ≠ (extractResult "\x7b\"identity\": \x7b\"name\": \"   \"\x7d\x7d").1 := by
  decide

/-- C8 amended: re-normalization is the identity on every normalized
profile without empty-string leaves: if all scalar leaves and list elements
are trimmed and non-empty and achievements is not the empty list, then
normalizing the serialised profile returns it unchanged. -/
theorem C8_idempotence_amended (p : Profile) (h : GoodProfile p = true) :
    normalize_profile_structure p.toJVal = p := by
  simp only [GoodProfile, Bool.and_eq_true, decide_eq_true_eq] at h
  obtain ⟨⟨⟨⟨⟨⟨⟨⟨⟨⟨⟨⟨⟨hn, hem⟩, hph⟩, hloc⟩, hlk⟩, hps⟩, hte⟩, hto⟩, hso⟩, hex⟩,
    hed⟩, hpr⟩, hac⟩, hane⟩ := h
  exact Profile.eq_of_fields (norm_rt_identity p hn hem hph hloc hlk)
    (norm_rt_summary p hps) (norm_rt_skills p hte hto hso)
    (norm_rt_experience p hex) (norm_rt_education p hed)
    (norm_rt_projects p hpr) (norm_rt_achievements p hac hane)

/-- Witness for C8 on a concrete good profile. -/
theorem C8_idempotence_amended_witness :
    GoodProfile fixtureProfile = true ∧
    normalize_profile_structure fixtureProfile.toJVal = fixtureProfile :=
  ⟨by decide, C8_idempotence_amended fixtureProfile (by decide)⟩

def fixtureCv : String :=
  "This resume text is long enough to pass the fifty character minimum."

/-- C9: extraction is a total function (the embedding is itself the proof
that no exception escapes); any input whose stripped length is below the
50-character threshold yields the all-null profile for every possible model
response (no parse is even consulted), and whenever both the strict parse
and the recovery parse of the response fail the result is again the
all-null profile. -/
theorem C9_total_contract :
    (∀ (avail : Bool) (cv resp : String), (pyStrip cv).length < 50 →
      extract_cv_data_deep avail cv resp = get_empty_profile_structure) ∧
    (∀ (avail : Bool) (cv resp : String),
      strictOrRecover (stripFence (pyStrip resp)) = none →
      extract_cv_data_deep avail cv resp = get_empty_profile_structure) := by
  constructor
  · intro avail cv resp h
    cases avail <;> simp [extract_cv_data_deep, h]
  · intro avail cv resp h
    cases avail <;> simp [extract_cv_data_deep, extractResult, h]

/-- Witness for C9: the empty CV short-circuits regardless of the response,
and an unparseable response yields the all-null profile. -/
theorem C9_total_contract_witness :
    ((pyStrip "").length < 50 ∧
      extract_cv_data_deep true "" "\x7b\"a\": 1\x7d" = get_empty_profile_structure) ∧
    (strictOrRecover (stripFence (pyStrip "not json at all")) = none ∧
      extract_cv_data_deep true fixtureCv "not json at all" = get_empty_profile_structure) :=
  ⟨⟨by decide, C9_total_contract.1 true "" "\x7b\"a\": 1\x7d" (by decide)⟩,
   ⟨by decide, C9_total_contract.2 true fixtureCv "not json at all" (by decide)⟩⟩

/-- C10: `extract_cv_data` returns exactly `extract_cv_data_deep` on every
input; its first statement is an unconditional return of the deep
extraction, so the legacy flat-schema body after it is unreachable and the
two functions are extensionally identical. -/
theorem C10_legacy_redirect :
    ∀ (avail : Bool) (cv resp : String),
      extract_cv_data avail cv resp = extract_cv_data_deep avail cv resp :=
  fun _ _ _ => rfl

theorem scanSimple_sound : ∀ cs p r, scanSimple cs = some (p, r) →
    cs = p ++ r ∧ ∃ b, p = b ++ ['\x7d'] ∧ ∀ c ∈ b, c ≠ '\x7b' ∧ c ≠ '\x7d' := by
  intro cs
  induction cs with
  | nil => intro p r h; simp [scanSimple] at h
  | cons c cs ih =>
      intro p r h
      by_cases h1 : c = '\x7d'
      · subst h1
        simp only [scanSimple, Option.some_inj, Prod.mk.injEq] at h
        obtain ⟨rfl, rfl⟩ := h
        exact ⟨rfl, [], rfl, by simp⟩
      · by_cases h2 : c = '\x7b'
        · subst h2
          simp [scanSimple] at h
        · rw [scanSimple.eq_4 c cs (by simpa using h1) (by simpa using h2)] at h
          cases hcs : scanSimple cs with
          | none => rw [hcs] at h; simp at h
          | some pr =>
              rw [hcs] at h
              obtain ⟨p', r'⟩ := pr
              simp only [Option.map_some', Option.some_inj, Prod.mk.injEq] at h
              obtain ⟨rfl, rfl⟩ := h
              obtain ⟨heq, b, rfl, hb⟩ := ih p' r' hcs
              refine ⟨by simp [heq], c :: b, by simp, ?_⟩
              intro x hx
              rcases List.mem_cons.mp hx with rfl | hx
              · exact ⟨h2, h1⟩
              · exact hb x hx

theorem scanSimple_complete : ∀ b rest, (∀ c ∈ b, c ≠ '\x7b' ∧ c ≠ '\x7d') →
    scanSimple (b ++ '\x7d' :: rest) = some (b ++ ['\x7d'], rest) := by
  intro b
  induction b with
  | nil => intro rest _; simp [scanSimple]
  | cons c cs ih =>
      intro rest hb
      have hc := hb c (by simp)
      rw [List.cons_append,
        scanSimple.eq_4 c (cs ++ '\x7d' :: rest) (by simpa using hc.2)
          (by simpa using hc.1),
        ih rest (fun x hx => hb x (by simp [hx]))]
      simp

theorem scanOuter_sound : ∀ f cs p r, scanOuter f cs = some (p, r) →
    cs = p ++ r ∧ ∃ int, p = int ++ ['\x7d'] ∧ Interior int := by
  intro f
  induction f with
  | zero => intro cs p r h; simp [scanOuter] at h
  | succ f ih =>
      intro cs p r h
      cases cs with
      | nil => simp [scanOuter] at h
      | cons c cs =>
          by_cases h1 : c = '\x7d'
          · subst h1
            simp only [scanOuter, Option.some_inj, Prod.mk.injEq] at h
            obtain ⟨rfl, rfl⟩ := h
            exact ⟨rfl, [], rfl, Interior.nil⟩
          · by_cases h2 : c = '\x7b'
            · subst h2
              simp only [scanOuter] at h
              cases hss : scanSimple cs with
              | none => rw [hss] at h; simp at h
              | some pr =>
                  rw [hss] at h
                  obtain ⟨inner, rest⟩ := pr
                  simp only at h
                  cases hso : scanOuter f rest with
                  | none => rw [hso] at h; simp at h
                  | some pr2 =>
                      rw [hso] at h
                      obtain ⟨p2, r2⟩ := pr2
                      simp only [Option.map_some', Option.some_inj,
                        Prod.mk.injEq] at h
                      obtain ⟨rfl, rfl⟩ := h
                      obtain ⟨heq1, b, rfl, hb⟩ := scanSimple_sound cs inner rest hss
                      obtain ⟨heq2, int2, rfl, hint2⟩ := ih rest p2 r2 hso
                      subst heq1 heq2
                      refine ⟨by simp, '\x7b' :: b ++ '\x7d' :: int2, by simp, ?_⟩
                      exact Interior.blk hb hint2
            · rw [scanOuter.eq_5 f c cs (by simpa using h1) (by simpa using h2)] at h
              cases hso : scanOuter f cs with
              | none => rw [hso] at h; simp at h
              | some pr =>
                  rw [hso] at h
                  obtain ⟨p', r'⟩ := pr
                  simp only [Option.map_some', Option.some_inj, Prod.mk.injEq] at h
                  obtain ⟨rfl, rfl⟩ := h
                  obtain ⟨heq, int, rfl, hint⟩ := ih cs p' r' hso
                  subst heq
                  exact ⟨by simp, c :: int, by simp, Interior.chr h2 h1 hint⟩

theorem scanOuter_complete : ∀ int, Interior int →
    ∀ rest f, int.length < f →
      scanOuter f (int ++ '\x7d' :: rest) = some (int ++ ['\x7d'], rest) := by
  intro int hint
  induction hint with
  | nil =>
      intro rest f hf
      cases f with
      | zero => omega
      | succ f => simp [scanOuter]
  | chr h1 h2 hint ih =>
      rename_i c cs
      intro rest f hf
      cases f with
      | zero => simp at hf
      | succ f =>
          rw [List.cons_append,
            scanOuter.eq_5 f c (cs ++ '\x7d' :: rest) (by simpa using h2)
              (by simpa using h1),
            ih rest f (by simp only [List.length_cons] at hf; omega)]
          simp
  | blk hb hint ih =>
      rename_i b cs
      intro rest f hf
      cases f with
      | zero => simp at hf
      | succ f =>
          have hsplit : ('\x7b' :: b ++ '\x7d' :: cs) ++ '\x7d' :: rest
              = '\x7b' :: (b ++ '\x7d' :: (cs ++ '\x7d' :: rest)) := by simp
          rw [hsplit]
          simp only [scanOuter]
          rw [scanSimple_complete b _ hb]
          simp only
          rw [ih rest f (by simp only [List.cons_append, List.length_cons,
            List.length_append] at hf ⊢; omega)]
          simp

theorem tryBlock_sound : ∀ cs s, tryBlock cs = some s →
    IsBlock s ∧ ∃ r, cs = s ++ r := by
  intro cs s h
  cases cs with
  | nil => simp [tryBlock] at h
  | cons c cs =>
      by_cases hc : c = '\x7b'
      · subst hc
        simp only [tryBlock] at h
        cases hso : scanOuter (cs.length + 1) cs with
        | none => rw [hso] at h; simp at h
        | some pr =>
            rw [hso] at h
            obtain ⟨p, r⟩ := pr
            simp only [Option.map_some', Option.some_inj] at h
            subst h
            obtain ⟨heq, int, rfl, hint⟩ := scanOuter_sound _ cs p r hso
            exact ⟨⟨int, by simp, hint⟩, r, by simp [heq]⟩
      · rw [tryBlock.eq_2 (c :: cs) (by intro cs'; simp [hc])] at h
        simp at h

theorem tryBlock_isBlock : ∀ s rest, IsBlock s → tryBlock (s ++ rest) ≠ none := by
  rintro s rest ⟨int, rfl, hint⟩
  have hsplit : ('\x7b' :: int ++ ['\x7d']) ++ rest
      = '\x7b' :: (int ++ '\x7d' :: rest) := by simp
  rw [hsplit]
  simp only [tryBlock]
  rw [scanOuter_complete int hint rest _
    (by simp only [List.length_append, List.length_cons]; omega)]
  simp

theorem firstBlockL_sound : ∀ l s, firstBlockL l = some s →
    ∃ i, (∃ rest, l.drop i = s ++ rest) ∧ IsBlock s ∧
      ∀ j < i, ¬ BlockStartsAt l j := by
  intro l
  induction l with
  | nil => intro s h; simp [firstBlockL] at h
  | cons c cs ih =>
      intro s h
      simp only [firstBlockL] at h
      cases htb : tryBlock (c :: cs) with
      | some s' =>
          rw [htb] at h
          simp only [Option.some_inj] at h
          subst h
          obtain ⟨hblk, r, heq⟩ := tryBlock_sound _ _ htb
          exact ⟨0, ⟨r, by simpa using heq⟩, hblk, fun j hj => by omega⟩
      | none =>
          rw [htb] at h
          obtain ⟨i, ⟨rest, heq⟩, hblk, hmin⟩ := ih s h
          refine ⟨i + 1, ⟨rest, by simpa using heq⟩, hblk, ?_⟩
          intro j hj
          cases j with
          | zero =>
              rintro ⟨s', r', hb', hdrop⟩
              simp only [List.drop_zero] at hdrop
              rw [hdrop] at htb
              exact tryBlock_isBlock s' r' hb' htb
          | succ j =>
              intro hbs
              exact hmin j (by omega) (by simpa [BlockStartsAt] using hbs)

theorem firstBlockL_none : ∀ l, firstBlockL l = none →
    ∀ j, ¬ BlockStartsAt l j := by
  intro l
  induction l with
  | nil =>
      intro _ j
      rintro ⟨s, r, ⟨int, rfl, _⟩, hdrop⟩
      simp at hdrop
  | cons c cs ih =>
      intro h j
      simp only [firstBlockL] at h
      cases htb : tryBlock (c :: cs) with
      | some s' => rw [htb] at h; simp at h
      | none =>
          rw [htb] at h
          cases j with
          | zero =>
              rintro ⟨s, r, hb, hdrop⟩
              simp only [List.drop_zero] at hdrop
              rw [hdrop] at htb
              exact tryBlock_isBlock s r hb htb
          | succ j =>
              intro hbs
              exact ih h j (by simpa [BlockStartsAt] using hbs)

def fixtureResponse : String :=
  "junk! \x7b\"a\": 1\x7d mid \x7b\"identity\": \x7b\"name\": \"Jane\"\x7d\x7d end"

set_option maxRecDepth 40000 in
/-- C7 counterexample: on this unparseable text the recovery takes the
leftmost regex match, not the largest balanced substring — the largest
block carries the identity data, but the result of extraction has a null
name because the smaller, earlier block was parsed instead. -/
theorem C7_recovery_counterexample :
    jloads fixtureResponse = none ∧
    firstBlock fixtureResponse = some "\x7b\"a\": 1\x7d" ∧
    specLargestBlock fixtureResponse
      = some "\x7b\"identity\": \x7b\"name\": \"Jane\"\x7d\x7d" ∧
    firstBlock fixtureResponse ≠ specLargestBlock fixtureResponse ∧
    (extractResult fixtureResponse).1.identity.name = none := by
  decide

/-- C7 amended: when the strict parse fails the Normalizer retries on the
first (leftmost) balanced `\x7b...\x7d` substring tolerating one level of
nested braces — whenever the search returns a substring it is a block of
the recovery grammar occurring at a position before which no block starts,
and when it returns nothing no block occurs anywhere; if both the strict
parse and the recovery fail, the result is the canonical all-null profile
with the failure outcome, not an exception. -/
theorem C7_recovery_amended :
    (∀ t s, firstBlock t = some s →
      ∃ i, (∃ rest, t.data.drop i = s.data ++ rest) ∧ IsBlock s.data ∧
        ∀ j < i, ¬ BlockStartsAt t.data j) ∧
    (∀ t, firstBlock t = none → ∀ j, ¬ BlockStartsAt t.data j) ∧
    (∀ raw, strictOrRecover (stripFence (pyStrip raw)) = none →
      extractResult raw = (get_empty_profile_structure, false)) := by
  refine ⟨?_, ?_, ?_⟩
  · intro t s h
    simp only [firstBlock] at h
    cases hfb : firstBlockL t.data with
    | none => rw [hfb] at h; simp at h
    | some l =>
        rw [hfb] at h
        simp only [Option.map_some', Option.some_inj] at h
        subst h
        exact firstBlockL_sound _ _ hfb
  · intro t h
    simp only [firstBlock] at h
    cases hfb : firstBlockL t.data with
    | some l => rw [hfb] at h; simp at h
    | none => exact firstBlockL_none _ hfb
  · intro raw h
    simp [extractResult, h]

/-- Witness for C7: a concrete leftmost block and a concrete double parse
failure. -/
theorem C7_recovery_amended_witness :
    (∃ i, (∃ rest, ("x\x7ba\x7d" : String).data.drop i
          = ("\x7ba\x7d" : String).data ++ rest) ∧
        IsBlock ("\x7ba\x7d" : String).data ∧
        ∀ j < i, ¬ BlockStartsAt ("x\x7ba\x7d" : String).data j) ∧
    extractResult "not json at all" = (get_empty_profile_structure, false) :=
  ⟨C7_recovery_amended.1 "x\x7ba\x7d" "\x7ba\x7d" (by decide),
   C7_recovery_amended.2.2 "not json at all" (by decide)⟩
